import Mathlib

/-!
Verification development for the photo-archive synchronization engine.

The definitions below are shallow embeddings of the Rust sources:
  * src/archive/common.rs        (path layout: build_paths, build_filename)
  * src/archive/records_store.rs (record log store: write, retain, JSON row)
  * src/repository/sources.rs    (source registry: find_by_id, write_entry)
  * src/archive/sync.rs          (scanner, worker pool, coordinator)

Machine integers are modelled as Nat/Int; paths are modelled as lists of
components; fallible code returns Except/Option.
-/

/-- Uppercase hexadecimal digit for a value below 16, as in Rust formatting. -/
def hexDigit (n : Nat) : Char :=
  if n < 10 then Char.ofNat (48 + n) else Char.ofNat (55 + n)

/-- Rust format specifier 08X: eight uppercase hexadecimal digits,
zero padded, for a u32 value. -/
def hex8 (n : Nat) : String :=
  String.mk ((List.range 8).map (fun i => hexDigit (n / 16 ^ (7 - i) % 16)))

/-- Two-digit zero padded decimal, as chrono emits for the m, d, H, M, S
format specifiers. -/
def pad2 (n : Nat) : String :=
  if n < 10 then "0" ++ toString n else toString n

/-- Four-digit zero padded decimal, as chrono emits for the Y specifier. -/
def pad4 (n : Nat) : String :=
  if n < 10 then "000" ++ toString n
  else if n < 100 then "00" ++ toString n
  else if n < 1000 then "0" ++ toString n
  else toString n

/-- Character class of uppercase hexadecimal digits. -/
def isHexUpperChar (c : Char) : Bool :=
  (48 ≤ c.toNat && c.toNat ≤ 57) || (65 ≤ c.toNat && c.toNat ≤ 70)

/-- One bit step of the reflected CRC-32C (Castagnoli) computation. -/
def crc32cStep (crc : Nat) : Nat :=
  if crc % 2 = 1 then (crc / 2) ^^^ 0x82F63B78 else crc / 2

/-- Fold one byte into the running CRC-32C state. -/
def crc32cByte (crc b : Nat) : Nat :=
  crc32cStep^[8] (crc ^^^ b % 256)

/-- CRC-32C of a byte sequence: init 0xFFFFFFFF, reflected, xorout
0xFFFFFFFF.  This is the CASTAGNOLI constant of src/archive/sync.rs. -/
def crc32c (bs : List Nat) : Nat :=
  (bs.foldl crc32cByte 0xFFFFFFFF) ^^^ 0xFFFFFFFF

/-- UTF-8 encoding of one character. -/
def utf8Bytes (c : Char) : List Nat :=
  let n := c.toNat
  if n < 128 then [n]
  else if n < 2048 then [192 + n / 64, 128 + n % 64]
  else if n < 65536 then [224 + n / 4096, 128 + n / 64 % 64, 128 + n % 64]
  else [240 + n / 262144, 128 + n / 4096 % 64, 128 + n / 64 % 64, 128 + n % 64]

/-- UTF-8 bytes of a string, as Rust's as_bytes on an OsStr. -/
def strBytes (s : String) : List Nat :=
  s.data.foldr (fun c acc => utf8Bytes c ++ acc) []

/-- Naive calendar datetime, the model of chrono's NaiveDateTime as the
code consumes it (year, month, day, hour, minute, second fields). -/
structure NDT where
  year : Nat
  month : Nat
  day : Nat
  hour : Nat
  minute : Nat
  second : Nat
deriving DecidableEq

/-- Gregorian calendar date from a count of days since 1970-01-01,
the civil-from-days conversion used by chrono for UTC datetimes. -/
def civilFromDays (z : Nat) : Nat × Nat × Nat :=
  let zs := z + 719468
  let era := zs / 146097
  let doe := zs % 146097
  let yoe := (doe - doe / 1460 + doe / 36524 - doe / 146096) / 365
  let y := yoe + era * 400
  let doy := doe - (365 * yoe + yoe / 4 - yoe / 100)
  let mp := (5 * doy + 2) / 153
  let d := doy - (153 * mp + 2) / 5 + 1
  let m := if mp < 10 then mp + 3 else mp - 9
  (if m ≤ 2 then y + 1 else y, m, d)

/-- UTC calendar datetime from seconds since the Unix epoch, the model of
chrono's DateTime Utc from a SystemTime at or after the epoch. -/
def ndtFromEpoch (s : Nat) : NDT :=
  let c := civilFromDays (s / 86400)
  let rem := s % 86400
  ⟨c.1, c.2.1, c.2.2, rem / 3600, rem % 3600 / 60, rem % 60⟩

/-- Relative or absolute filesystem path, modelled as its list of
components.  The empty list models Rust's empty path. -/
abbrev FPath := List String

/-- Rust Path::parent on the component model: none for the empty path,
otherwise the path without its last component. -/
def pathParent : FPath → Option FPath
  | [] => none
  | p => some p.dropLast

/-- Rust Path::file_name on the component model: the last component. -/
def pathFileName (p : FPath) : Option String :=
  p.getLast?

/-- Rust OsStr rendering of a relative path: components joined with the
platform separator. -/
def renderFPath (p : FPath) : String :=
  String.intercalate "/" p

/-- Result record of build_paths, mirroring ArchivedPhotoPaths of
src/archive/common.rs. -/
structure ArchivedPhotoPaths where
  date_path : FPath
  img_path : FPath
  link_dir_path : FPath
  link_file_path : FPath
deriving DecidableEq

/-- Embedding of build_paths of src/archive/common.rs.  The expect panics
of the source become Except errors. -/
def build_paths (partition_crc : Nat) (target_base_dir : FPath)
    (source_relative_path : FPath) (photo_timestamp : Option NDT) :
    Except String ArchivedPhotoPaths :=
  let date_path := match photo_timestamp with
    | some dt => target_base_dir ++ [toString dt.year, pad2 dt.month ++ "." ++ pad2 dt.day]
    | none => target_base_dir ++ ["no-date"]
  let img_path := date_path ++ ["img"]
  match pathParent source_relative_path with
  | none => .error "No source dir found"
  | some source_dir =>
    match pathFileName source_dir with
    | none => .error "Error extracting parent dir"
    | some dirname =>
      let link_dir_path := date_path ++
        [hex8 partition_crc ++ "." ++ hex8 (crc32c (strBytes (renderFPath source_dir))) ++ "." ++ dirname]
      match pathFileName source_relative_path with
      | none => .error "Error extracting filename"
      | some fname =>
        .ok ⟨date_path, img_path, link_dir_path, link_dir_path ++ [fname]⟩

/-- Embedding of build_filename of src/archive/common.rs.  The file
timestamp is seconds since the Unix epoch; the source's Result wrapper
has no error path and is dropped. -/
def build_filename (photo_ts : Option NDT) (file_ts : Nat) (crc : Nat) : String :=
  match photo_ts with
  | some dt => pad2 dt.hour ++ pad2 dt.minute ++ pad2 dt.second ++ "_" ++ hex8 crc ++ ".jpg"
  | none =>
    let u := ndtFromEpoch file_ts
    pad4 u.year ++ pad2 u.month ++ pad2 u.day ++ "-" ++
      pad2 u.hour ++ pad2 u.minute ++ pad2 u.second ++ "_" ++ hex8 crc ++ ".jpg"

/-- ASCII lowercasing of one character, the model of Rust to_lowercase as
applied to file extensions. -/
def lowerChar (c : Char) : Char :=
  if 65 ≤ c.toNat && c.toNat ≤ 90 then Char.ofNat (c.toNat + 32) else c

/-- ASCII lowercasing of a string. -/
def lowerStr (s : String) : String :=
  String.mk (s.data.map lowerChar)

/-- Split a character list at a separator character, accumulator based. -/
def splitCharAux (sep : Char) : List Char → List Char → List String
  | [], acc => [String.mk acc.reverse]
  | c :: rest, acc =>
    if c = sep then String.mk acc.reverse :: splitCharAux sep rest []
    else splitCharAux sep rest (c :: acc)

/-- Split a string at every occurrence of a separator character. -/
def splitChar (sep : Char) (s : String) : List String :=
  splitCharAux sep s.data []

/-- Accumulator for fileLines: text lines of a buffer, as Rust
BufRead::lines yields them (terminator stripped, no trailing empty line). -/
def fileLinesAux : List Char → List Char → List String
  | [], acc => if acc.isEmpty then [] else [String.mk acc.reverse]
  | c :: rest, acc =>
    if c = Char.ofNat 10 then String.mk acc.reverse :: fileLinesAux rest []
    else fileLinesAux rest (c :: acc)

/-- Lines of a file content string, as Rust BufRead::lines yields them. -/
def fileLines (s : String) : List String :=
  fileLinesAux s.data []

/-- Character of the standard base64 alphabet for a sextet value. -/
def b64Char (n : Nat) : Char :=
  if n < 26 then Char.ofNat (65 + n)
  else if n < 52 then Char.ofNat (97 + n - 26)
  else if n < 62 then Char.ofNat (48 + n - 52)
  else if n = 62 then '+' else '/'

/-- Sextet value of a standard base64 alphabet character. -/
def b64Val (c : Char) : Option Nat :=
  if 65 ≤ c.toNat && c.toNat ≤ 90 then some (c.toNat - 65)
  else if 97 ≤ c.toNat && c.toNat ≤ 122 then some (c.toNat - 97 + 26)
  else if 48 ≤ c.toNat && c.toNat ≤ 57 then some (c.toNat - 48 + 52)
  else if c = '+' then some 62
  else if c = '/' then some 63
  else none

/-- Standard padded base64 encoding of a byte list, the model of the
base64 crate STANDARD engine encode used in src/archive/records_store.rs. -/
def encB64 : List Nat → List Char
  | [] => []
  | [a] => [b64Char (a / 4), b64Char (a % 4 * 16), '=', '=']
  | [a, b] => [b64Char (a / 4), b64Char (a % 4 * 16 + b / 16), b64Char (b % 16 * 4), '=']
  | a :: b :: c :: rest =>
    b64Char (a / 4) :: b64Char (a % 4 * 16 + b / 16) ::
      b64Char (b % 16 * 4 + c / 64) :: b64Char (c % 64) :: encB64 rest

/-- Standard padded base64 decoding of a character list, the model of the
base64 crate STANDARD engine decode (canonical padding, no trailing bits). -/
def decB64 : List Char → Option (List Nat)
  | [] => some []
  | w :: x :: y :: z :: rest =>
    if rest.isEmpty && z = '=' then
      if y = '=' then
        match b64Val w, b64Val x with
        | some dw, some dx => if dx % 16 = 0 then some [dw * 4 + dx / 16] else none
        | _, _ => none
      else
        match b64Val w, b64Val x, b64Val y with
        | some dw, some dx, some dy =>
          if dy % 4 = 0 then some [dw * 4 + dx / 16, dx % 16 * 16 + dy / 4] else none
        | _, _, _ => none
    else
      match b64Val w, b64Val x, b64Val y, b64Val z, decB64 rest with
      | some dw, some dx, some dy, some dz, some bs =>
        some ((dw * 4 + dx / 16) :: (dx % 16 * 16 + dy / 4) :: (dy % 4 * 64 + dz) :: bs)
      | _, _, _, _, _ => none
  | _ => none

/-- Base64 encoding returning a string. -/
def b64encode (bs : List Nat) : String :=
  String.mk (encB64 bs)

/-- Base64 decoding of a string. -/
def b64decode (s : String) : Option (List Nat) :=
  decB64 s.data

/-- JSON value, the model of the serde_json data model as this program
uses it (no booleans or floats appear in the schemas). -/
inductive Json where
  | null : Json
  | num (n : Int) : Json
  | str (s : String) : Json
  | arr (elems : List Json) : Json
  | obj (fields : List (String × Json)) : Json

/-- Escape one character for a JSON string literal, as serde_json does
for the characters appearing in this program's data. -/
def escChar (c : Char) : String :=
  if c = Char.ofNat 34 then String.mk [Char.ofNat 92, Char.ofNat 34]
  else if c = Char.ofNat 92 then String.mk [Char.ofNat 92, Char.ofNat 92]
  else if c = Char.ofNat 10 then String.mk [Char.ofNat 92, 'n']
  else if c = Char.ofNat 13 then String.mk [Char.ofNat 92, 'r']
  else if c = Char.ofNat 9 then String.mk [Char.ofNat 92, 't']
  else String.singleton c

/-- Escape a character list for a JSON string literal. -/
def escListAux : List Char → List Char
  | [] => []
  | c :: rest => (escChar c).data ++ escListAux rest

/-- Escape a whole string for a JSON string literal. -/
def escapeStr (s : String) : String :=
  String.mk (escListAux s.data)

/-- Decimal digit character. -/
def digitChar (n : Nat) : Char :=
  Char.ofNat (48 + n)

/-- Fuel-bounded digit expansion; the fuel always suffices at n itself. -/
def natDigitsAux : Nat → Nat → List Char
  | 0, n => [digitChar n]
  | fuel + 1, n =>
    if n < 10 then [digitChar n] else natDigitsAux fuel (n / 10) ++ [digitChar (n % 10)]

/-- Decimal digit characters of a natural number, most significant first. -/
def natDigits (n : Nat) : List Char :=
  natDigitsAux n n

/-- Decimal rendering of an integer, as serde_json emits numbers of this
program's integer-only schemas. -/
def renderInt (n : Int) : String :=
  if n < 0 then "-" ++ String.mk (natDigits n.natAbs) else String.mk (natDigits n.toNat)

mutual

/-- Compact JSON rendering, the model of serde_json to_string. -/
def renderJson : Json → String
  | .null => "null"
  | .num n => renderInt n
  | .str s => String.mk [Char.ofNat 34] ++ escapeStr s ++ String.mk [Char.ofNat 34]
  | .arr xs => "[" ++ renderJsonList xs ++ "]"
  | .obj fs => String.mk [Char.ofNat 123] ++ renderJsonFields fs ++ String.mk [Char.ofNat 125]

/-- Comma-separated rendering of JSON array elements. -/
def renderJsonList : List Json → String
  | [] => ""
  | [x] => renderJson x
  | x :: y :: rest => renderJson x ++ "," ++ renderJsonList (y :: rest)

/-- Comma-separated rendering of JSON object members. -/
def renderJsonFields : List (String × Json) → String
  | [] => ""
  | [f] => String.mk [Char.ofNat 34] ++ escapeStr f.1 ++ String.mk [Char.ofNat 34] ++ ":" ++ renderJson f.2
  | f :: g :: rest =>
    String.mk [Char.ofNat 34] ++ escapeStr f.1 ++ String.mk [Char.ofNat 34] ++ ":" ++ renderJson f.2
      ++ "," ++ renderJsonFields (g :: rest)

end

/-- Whitespace skipping for the JSON parser. -/
def skipWs : List Char → List Char
  | [] => []
  | c :: rest =>
    if c = ' ' || c = Char.ofNat 9 || c = Char.ofNat 10 || c = Char.ofNat 13
    then skipWs rest else c :: rest

/-- Unescape one JSON escape character. -/
def unescChar (c : Char) : Option Char :=
  if c = Char.ofNat 34 then some (Char.ofNat 34)
  else if c = Char.ofNat 92 then some (Char.ofNat 92)
  else if c = '/' then some '/'
  else if c = 'n' then some (Char.ofNat 10)
  else if c = 't' then some (Char.ofNat 9)
  else if c = 'r' then some (Char.ofNat 13)
  else none

/-- Parse the body of a JSON string literal after its opening quote,
returning the string and the input after the closing quote. -/
def parseStringBody : List Char → Option (String × List Char)
  | [] => none
  | c :: rest =>
    if c = Char.ofNat 34 then some ("", rest)
    else if c = Char.ofNat 92 then
      match rest with
      | [] => none
      | e :: rest2 =>
        match unescChar e with
        | none => none
        | some c2 =>
          (parseStringBody rest2).map (fun r => (String.singleton c2 ++ r.1, r.2))
    else (parseStringBody rest).map (fun r => (String.singleton c ++ r.1, r.2))

/-- Leading decimal digit span of the input. -/
def takeDigits : List Char → List Char × List Char
  | [] => ([], [])
  | c :: rest =>
    if c.isDigit then
      let r := takeDigits rest
      (c :: r.1, r.2)
    else ([], c :: rest)

/-- Natural number denoted by a digit list. -/
def digitsToNat (ds : List Char) : Nat :=
  ds.foldl (fun a c => a * 10 + (c.toNat - 48)) 0

/-- Parse a nonempty digit run as a natural number. -/
def parseNat (cs : List Char) : Option (Nat × List Char) :=
  let r := takeDigits cs
  if r.1.isEmpty then none else some (digitsToNat r.1, r.2)

mutual

/-- Fuel-bounded recursive-descent parser for a JSON value, the model of
serde_json parsing for the grammar fragment this program emits. -/
def parseVal : Nat → List Char → Option (Json × List Char)
  | 0, _ => none
  | fuel + 1, cs =>
    match skipWs cs with
    | [] => none
    | c :: rest =>
      if c = Char.ofNat 34 then
        (parseStringBody rest).map (fun r => (.str r.1, r.2))
      else if c = '[' then
        match skipWs rest with
        | ']' :: rest2 => some (.arr [], rest2)
        | cs2 => (parseArrTail fuel cs2).map (fun r => (.arr r.1, r.2))
      else if c = Char.ofNat 123 then
        match skipWs rest with
        | d :: rest2 =>
          if d = Char.ofNat 125 then some (.obj [], rest2)
          else (parseObjTail fuel (d :: rest2)).map (fun r => (.obj r.1, r.2))
        | [] => none
      else if c = 'n' then
        match rest with
        | 'u' :: 'l' :: 'l' :: rest2 => some (.null, rest2)
        | _ => none
      else if c = '-' then
        (parseNat rest).map (fun r => (.num (-(r.1 : Int)), r.2))
      else if c.isDigit then
        (parseNat (c :: rest)).map (fun r => (.num (r.1 : Int), r.2))
      else none

/-- Parse the elements of a nonempty JSON array up to the closing bracket. -/
def parseArrTail : Nat → List Char → Option (List Json × List Char)
  | 0, _ => none
  | fuel + 1, cs =>
    match parseVal fuel cs with
    | none => none
    | some (v, cs2) =>
      match skipWs cs2 with
      | ',' :: cs3 => (parseArrTail fuel cs3).map (fun r => (v :: r.1, r.2))
      | ']' :: cs3 => some ([v], cs3)
      | _ => none

/-- Parse the members of a nonempty JSON object up to the closing brace. -/
def parseObjTail : Nat → List Char → Option (List (String × Json) × List Char)
  | 0, _ => none
  | fuel + 1, cs =>
    match skipWs cs with
    | q :: cs1 =>
      if q = Char.ofNat 34 then
        match parseStringBody cs1 with
        | none => none
        | some (key, cs2) =>
          match skipWs cs2 with
          | ':' :: cs3 =>
            match parseVal fuel cs3 with
            | none => none
            | some (v, cs4) =>
              match skipWs cs4 with
              | ',' :: cs5 => (parseObjTail fuel cs5).map (fun r => ((key, v) :: r.1, r.2))
              | d :: cs5 =>
                if d = Char.ofNat 125 then some ([(key, v)], cs5) else none
              | [] => none
          | _ => none
      else none
    | [] => none

end

/-- Parse a whole string as one JSON value, requiring the input to be
fully consumed, as serde_json from_str does. -/
def jsonParse (s : String) : Option Json :=
  match parseVal (s.data.length + 1) s.data with
  | some (v, rest) => if (skipWs rest).isEmpty then some v else none
  | none => none

/-- JSON value with no nested values: null, a number or a string. -/
def jsonFlat : Json → Bool
  | .null => true
  | .num _ => true
  | .str _ => true
  | _ => false

/-- The input does not start with a decimal digit. -/
def headNotDigit : List Char → Bool
  | [] => true
  | c :: _ => !c.isDigit

/-- On-disk JSON row of the record log, mirroring PhotoArchiveJsonRow of
src/archive/records_store.rs (field order as declared there). -/
structure PhotoArchiveJsonRow where
  timestamp : Option Int
  file_ts : Nat
  source : String
  path : String
  exif : List Nat
  size : Nat
  height : Nat
  width : Nat
  crc : Nat
deriving DecidableEq

/-- Serde deserialization of an i64 field. -/
def asI64 : Json → Option Int
  | .num n => if -(2 ^ 63) ≤ n ∧ n < 2 ^ 63 then some n else none
  | _ => none

/-- Serde deserialization of a u64 field. -/
def asU64 : Json → Option Nat
  | .num n => if 0 ≤ n ∧ n < 2 ^ 64 then some n.toNat else none
  | _ => none

/-- Serde deserialization of a u32 field. -/
def asU32 : Json → Option Nat
  | .num n => if 0 ≤ n ∧ n < 2 ^ 32 then some n.toNat else none
  | _ => none

/-- Serde deserialization of a string field. -/
def asStr : Json → Option String
  | .str s => some s
  | _ => none

/-- Member lookup in a JSON object field list. -/
def jGet (fs : List (String × Json)) (k : String) : Option Json :=
  (fs.find? (fun f => f.1 = k)).map (fun f => f.2)

/-- Serialization of a record row to the serde_json data model, mirroring
the Serialize derive on PhotoArchiveJsonRow with its serde renames and
the base64 helper module for the exif bytes. -/
def rowToJson (r : PhotoArchiveJsonRow) : Json :=
  .obj [
    ("ts", match r.timestamp with | none => .null | some n => .num n),
    ("fts", .num r.file_ts),
    ("src", .str r.source),
    ("pth", .str r.path),
    ("exf", .str (b64encode r.exif)),
    ("siz", .num r.size),
    ("hgh", .num r.height),
    ("wdt", .num r.width),
    ("crc", .num r.crc)]

/-- Deserialization of the optional ts member: a missing or null member
yields none, a numeric member must fit i64. -/
def readTs (fs : List (String × Json)) : Option (Option Int) :=
  match jGet fs "ts" with
  | none => some none
  | some .null => some none
  | some j => (asI64 j).map some

/-- Deserialization of a record row from the serde_json data model,
mirroring the Deserialize derive on PhotoArchiveJsonRow: every field is
read by its serde rename, the exif string is base64 decoded, and a
missing or ill-typed field fails the whole parse. -/
def rowFromJson : Json → Option PhotoArchiveJsonRow
  | .obj fs =>
    (readTs fs).bind (fun ts =>
    ((jGet fs "fts").bind asU64).bind (fun fts =>
    ((jGet fs "src").bind asStr).bind (fun src =>
    ((jGet fs "pth").bind asStr).bind (fun pth =>
    (((jGet fs "exf").bind asStr).bind b64decode).bind (fun exf =>
    ((jGet fs "siz").bind asU64).bind (fun siz =>
    ((jGet fs "hgh").bind asU32).bind (fun hgh =>
    ((jGet fs "wdt").bind asU32).bind (fun wdt =>
    ((jGet fs "crc").bind asU32).map (fun crc =>
    ⟨ts, fts, src, pth, exf, siz, hgh, wdt, crc⟩)))))))))
  | _ => none

/-- JSON line written for a record row, as serde_json to_string renders it. -/
def rowToLine (r : PhotoArchiveJsonRow) : String :=
  renderJson (rowToJson r)

/-- Parse of one record-log line, as serde_json from_str for the row type. -/
def parseRowLine (s : String) : Option PhotoArchiveJsonRow :=
  (jsonParse s).bind rowFromJson

/-- Rewrite pass of retain over the lines of one bucket file, mirroring
the per-line loop of PhotoArchiveRecordsStore::retain: each line is
parsed (an unparseable line aborts with the error), and a kept line is
written to the temporary file exactly as read, with no separator. -/
def retainLines (pred : PhotoArchiveJsonRow → Bool) : List String → Except String String
  | [] => .ok ""
  | line :: rest =>
    match parseRowLine line with
    | none => .error ("unparseable line: " ++ line)
    | some row =>
      (retainLines pred rest).map (fun out => (if pred row then line else "") ++ out)

/-- Content of a bucket index.json after a successful retain, mirroring
PhotoArchiveRecordsStore::retain on one bucket: on success the temporary
file is renamed over the original, so the new content is the writer
output; on error the original content stays. -/
def retainBucket (pred : PhotoArchiveJsonRow → Bool) (content : String) :
    Except String String :=
  retainLines pred (fileLines content)

/-- Temporary file path used by retain for a bucket, mirroring the
format string /tmp/index.NAME.TIMESTAMP.json of records_store.rs. -/
def retainTempPath (bucketName tsStr : String) : String :=
  "/tmp/index." ++ bucketName ++ "." ++ tsStr ++ ".json"

/-- Bucket index file path, base/NAME/index.json. -/
def bucketIndexPath (base bucketName : String) : String :=
  base ++ "/" ++ bucketName ++ "/index.json"

/-- Parent directory of a slash-separated path string. -/
def parentDirStr (p : String) : String :=
  String.intercalate "/" ((splitChar '/' p).dropLast)

/-- Row of the sources registry, mirroring SourceJsonRow of
src/repository/sources.rs. -/
structure SourceJsonRow where
  id : String
  name : String
  group : String
  tags : List String
deriving DecidableEq

/-- Serialization of a registry row to the serde_json data model. -/
def sourceToJson (r : SourceJsonRow) : Json :=
  .obj [
    ("id", .str r.id),
    ("name", .str r.name),
    ("group", .str r.group),
    ("tags", .arr (r.tags.map .str))]

/-- Deserialization of a registry row from the serde_json data model. -/
def sourceFromJson : Json → Option SourceJsonRow
  | .obj fs =>
    (jGet fs "id").bind (fun ji => (asStr ji).bind (fun id =>
    (jGet fs "name").bind (fun jn => (asStr jn).bind (fun name =>
    (jGet fs "group").bind (fun jg => (asStr jg).bind (fun group =>
    (jGet fs "tags").bind (fun jt =>
      (match jt with
       | .arr xs => xs.mapM asStr
       | _ => none).map (fun tags => ⟨id, name, group, tags⟩))))))))
  | _ => none

/-- JSON line written for a registry row. -/
def renderSourceRow (r : SourceJsonRow) : String :=
  renderJson (sourceToJson r)

/-- Parse of one registry line. -/
def parseSourceLine (s : String) : Option SourceJsonRow :=
  (jsonParse s).bind sourceFromJson

/-- Embedding of SourcesRepo::find_by_id over the lines of
sources.ndjson: unreadable or unparseable lines are silently skipped and
the first row with the requested id is returned. -/
def find_by_id (lines : List String) (source_id : String) : Option SourceJsonRow :=
  (lines.filterMap parseSourceLine).find? (fun e => e.id = source_id)

/-- Embedding of SourcesRepo::write_entry: refuse when a row with the
same id is already present, otherwise append exactly one JSON line. -/
def write_entry (lines : List String) (entry : SourceJsonRow) :
    Except String (List String) :=
  match find_by_id lines entry.id with
  | some existing =>
    .error ("Source with id " ++ existing.id ++ " is already registered with name \x27" ++ existing.name ++ "\x27")
  | none => .ok (lines ++ [renderSourceRow entry])

/-- Rust Path::extension on a file name: the suffix after the last dot,
empty when there is none. -/
def extOf (name : String) : String :=
  ((splitChar '.' name).getLast?).getD ""

/-- Extension check of the scanner: lowercased extension jpg or jpeg. -/
def isSupportedExt (name : String) : Bool :=
  let e := lowerStr (if (splitChar '.' name).length ≤ 1 then "" else extOf name)
  e = "jpg" || e = "jpeg"

mutual

/-- Filesystem object seen by the scanner: a regular file, a directory
(with a flag recording whether read_dir succeeds on it), or a symlink to
a directory. -/
inductive FsTree where
  | file : String → FsTree
  | symlinkDir : String → FsTree
  | dir : String → Bool → FsEntries → FsTree

/-- Directory entry list; errEntry models one entry whose read fails
(the Err arm of the entry loop in scan_for_images_with_callback). -/
inductive FsEntries where
  | nil : FsEntries
  | errEntry : FsEntries → FsEntries
  | entry : FsTree → FsEntries → FsEntries

end

mutual

/-- Embedding of scan_for_images_with_callback opening one directory:
a failing read_dir is the expect panic of the source, modelled as an
error; otherwise its entries are walked. -/
def scanDir : String → Bool → FsEntries → Except String (List String)
  | _, false, _ => .error "Error reading dir"
  | pre, true, es => scanEntries pre es

/-- Embedding of the entry loop of scan_for_images_with_callback: an
erroring entry is logged and skipped, a non-symlink directory is
recursed into (propagating its panic), a file is emitted when its
lowercased extension is jpg or jpeg, a symlinked directory is skipped. -/
def scanEntries : String → FsEntries → Except String (List String)
  | _, .nil => .ok []
  | pre, .errEntry rest => scanEntries pre rest
  | pre, .entry (.file name) rest =>
    (scanEntries pre rest).map
      (fun r => (if isSupportedExt name then [pre ++ "/" ++ name] else []) ++ r)
  | pre, .entry (.symlinkDir _) rest => scanEntries pre rest
  | pre, .entry (.dir name readable es) rest =>
    match scanDir (pre ++ "/" ++ name) readable es with
    | .error e => .error e
    | .ok r1 => (scanEntries pre rest).map (fun r2 => r1 ++ r2)

end

/-- Decoded image as the worker sees it: dimensions and the raw pixel
byte buffer that the digest is computed over. -/
structure Img where
  width : Nat
  height : Nat
  bytes : List Nat
deriving DecidableEq

/-- Per-worker environment, mirroring WorkerContext plus the outcomes of
the external collaborators (EXIF reader, image decoder, file metadata)
as deterministic functions of the file path. -/
structure WorkerEnv where
  partitionId : String
  sourceBase : FPath
  targetBase : FPath
  exifTs : FPath → Option NDT
  exifBytes : FPath → Option (List Nat)
  decode : FPath → Except String Img
  mtime : FPath → Nat
  fsize : FPath → Nat

/-- Archive filesystem state visible to the workers: the set of existing
files (thumbnails and symlinks) and the set of existing directories. -/
structure FsState where
  files : List FPath
  dirs : List FPath
deriving DecidableEq

/-- Pipeline event, mirroring SynchronizationEvent of src/archive/sync.rs. -/
inductive SyncEvent where
  | scanProgress (count : Nat)
  | scanCompleted (count : Nat)
  | stored (src : FPath) (dst : FPath) (generated : Bool) (partialRec : Bool)
  | skipped (src : FPath) (existing : FPath)
  | ignored (src : FPath) (cause : String)
  | errored (src : FPath) (cause : String)
deriving DecidableEq

/-- In-memory record row produced by a worker, mirroring PhotoArchiveRow
of src/archive/records_store.rs. -/
structure PhotoArchiveRow where
  photo_ts : Option NDT
  file_ts : Nat
  source_id : String
  source_path : FPath
  exif : Option (List Nat)
  size : Nat
  height : Nat
  width : Nat
  digest : Nat
deriving DecidableEq

/-- Create a directory if missing (mkdir -p observable effect). -/
def addDir (fs : FsState) (d : FPath) : FsState :=
  if d ∈ fs.dirs then fs else ⟨fs.files, d :: fs.dirs⟩

/-- Create a file. -/
def addFile (fs : FsState) (f : FPath) : FsState :=
  ⟨f :: fs.files, fs.dirs⟩

/-- Body of the worker loop of process_images after build_paths
succeeded: the idempotency gate, decode, size check, digest, thumbnail
generation, symlink creation and record emission, returning the new
filesystem state, the emitted events and the records sent. -/
def processImage (env : WorkerEnv) (fs : FsState) (p : FPath)
    (ap : ArchivedPhotoPaths) : FsState × List SyncEvent × List PhotoArchiveRow :=
  let dt := env.exifTs p
  let fs0 := addDir fs ap.img_path
  if ap.link_file_path ∈ fs0.files then
    (fs0, [.skipped p ap.link_file_path], [])
  else
    let fs1 := addDir fs0 ap.link_dir_path
    match env.decode p with
    | .error e => (fs1, [.errored p ("Error processing image - " ++ e)], [])
    | .ok img =>
      if img.height < 300 || img.width < 300 then
        (fs1, [.ignored p ("Image is too small " ++ toString img.width ++ "x" ++ toString img.height)], [])
      else
        let digest := crc32c img.bytes
        let fname := build_filename dt (env.mtime p) digest
        let fpath := ap.img_path ++ [fname]
        let generated := fpath ∉ fs1.files
        let fs2 := if fpath ∈ fs1.files then fs1 else addFile fs1 fpath
        if ap.link_file_path ∈ fs2.files then
          (fs2, [.stored p fpath generated dt.isNone], [])
        else
          (addFile fs2 ap.link_file_path,
           [.stored p fpath generated dt.isNone],
           [⟨dt, env.mtime p, env.partitionId, p.drop env.sourceBase.length,
             env.exifBytes p, env.fsize p, img.height, img.width, digest⟩])

/-- One iteration of the worker receive loop of process_images for a
received path: EXIF and timestamp extraction, build_paths (whose expect
panic is modelled as the error), then processImage. -/
def processOne (env : WorkerEnv) (fs : FsState) (p : FPath) :
    Except String (FsState × List SyncEvent × List PhotoArchiveRow) :=
  let dt := env.exifTs p
  match build_paths (crc32c (strBytes env.partitionId)) env.targetBase
      (p.drop env.sourceBase.length) dt with
  | .error e => .error e
  | .ok ap => .ok (processImage env fs p ap)

/-- Sequential processing of a list of scanned paths, modelling the work
performed by the worker pool over the whole scan. -/
def processAll (env : WorkerEnv) (fs : FsState) :
    List FPath → Except String (FsState × List SyncEvent × List PhotoArchiveRow)
  | [] => .ok (fs, [], [])
  | p :: rest =>
    match processOne env fs p with
    | .error e => .error e
    | .ok (fs1, evs1, rcs1) =>
      match processAll env fs1 rest with
      | .error e => .error e
      | .ok (fs2, evs2, rcs2) => .ok (fs2, evs1 ++ evs2, rcs1 ++ rcs2)

/-- Event is Skipped or Ignored. -/
def SyncEvent.isSkippedOrIgnored : SyncEvent → Bool
  | .skipped _ _ => true
  | .ignored _ _ => true
  | _ => false

/-- Event is Stored with generated true. -/
def SyncEvent.isStoredGenerated : SyncEvent → Bool
  | .stored _ _ generated _ => generated
  | _ => false

/-- Event is Errored. -/
def SyncEvent.isErrored : SyncEvent → Bool
  | .errored _ _ => true
  | _ => false

/-- Event is Stored. -/
def SyncEvent.isStored : SyncEvent → Bool
  | .stored _ _ _ _ => true
  | _ => false

/-- Threads of the synchronization pipeline, as synchronize_source
spawns them. -/
inductive ThreadLabel where
  | counter : ThreadLabel
  | scanner : ThreadLabel
  | logger : ThreadLabel
  | writer : ThreadLabel
  | worker : Nat → ThreadLabel
deriving DecidableEq

/-- Threads spawned by synchronize_source, in spawn order: the optional
counter (when counting is enabled), the scanner, the logger, the
record-store writer, and the four workers. -/
def spawnedThreads (countImages : Bool) : List ThreadLabel :=
  (if countImages then [.counter] else []) ++
    [.scanner, .logger, .writer] ++ (List.range 4).map .worker

/-- Join handles collected into the SyncrhonizationTask handlers vector:
the scanner, writer and logger handles chained with the worker handles.
The counter thread's handle is dropped at the spawn site and never
collected. -/
def taskHandlers : List ThreadLabel :=
  [.scanner, .writer, .logger] ++ (List.range 4).map .worker

/-- Action performed by SyncrhonizationTask::join. -/
inductive JoinAction where
  | dropReceiver : JoinAction
  | await : ThreadLabel → JoinAction
deriving DecidableEq

/-- Embedding of SyncrhonizationTask::join: drop the logged-event
receiver, then await each collected handle in order. -/
def joinActions : List JoinAction :=
  .dropReceiver :: taskHandlers.map .await

/-- Concrete record row: empty strings, no timestamp, zero numerics. -/
def rcRowA : PhotoArchiveJsonRow := ⟨none, 0, "", "", [], 0, 0, 0, 0⟩

/-- Concrete record row with a timestamp and nonempty exif bytes. -/
def rcRowB : PhotoArchiveJsonRow := ⟨some 5, 7, "S", "d/a.jpg", [1, 255], 9, 300, 400, 1⟩

/-- JSON line of rcRowA. -/
def rcLineA : String := rowToLine rcRowA

/-- JSON line of rcRowB. -/
def rcLineB : String := rowToLine rcRowB

/-- Bucket file holding the two rows, one per line, as write produces. -/
def bucketW : String := rcLineA ++ "\n" ++ rcLineB ++ "\n"

/-- Concrete record row exercising every field for the roundtrip witness. -/
def rowW : PhotoArchiveJsonRow :=
  ⟨some (-3), 12, "SRC", "DCIM/1/a.jpg", [0, 255, 73], 1024, 3000, 4000, 4294967295⟩

/-- Concrete worker environment: a 400 by 400 image at every path. -/
def envW : WorkerEnv :=
  ⟨"P", ["src"], ["t"], fun _ => none, fun _ => none,
   fun _ => .ok ⟨400, 400, [1, 2, 3]⟩, fun _ => 0, fun _ => 7⟩

/-- Concrete worker environment: a 200 by 150 image at every path. -/
def envSmallW : WorkerEnv :=
  ⟨"P", ["src"], ["t"], fun _ => none, fun _ => none,
   fun _ => .ok ⟨200, 150, []⟩, fun _ => 0, fun _ => 7⟩

/-- Concrete source path for the worker witnesses. -/
def pW : FPath := ["src", "d", "a.jpg"]

/-- Archive paths computed for pW under envW. -/
def apW : ArchivedPhotoPaths :=
  match build_paths (crc32c (strBytes "P")) ["t"] ["d", "a.jpg"] none with
  | .ok ap => ap
  | .error _ => ⟨[], [], [], []⟩

/-- Filesystem state already holding the link file of pW. -/
def fsLinkW : FsState := ⟨[apW.link_file_path], []⟩

/-- First sync run over the single path pW from an empty archive. -/
def run1W : Except String (FsState × List SyncEvent × List PhotoArchiveRow) :=
  processAll envW ⟨[], []⟩ [pW]

/-- Filesystem state after the first run. -/
def fs1W : FsState := match run1W with | .ok r => r.1 | .error _ => ⟨[], []⟩

/-- Events of the first run. -/
def evs1W : List SyncEvent := match run1W with | .ok r => r.2.1 | .error _ => []

/-- Records of the first run. -/
def rcs1W : List PhotoArchiveRow := match run1W with | .ok r => r.2.2 | .error _ => []

/-- Concrete registry row. -/
def srcRowA : SourceJsonRow := ⟨"ID1", "N1", "G1", ["t1", "t2"]⟩

/-- Concrete registry row with a fresh id. -/
def srcRowB : SourceJsonRow := ⟨"ID2", "N2", "G2", []⟩

/-- Concrete registry file content holding srcRowA. -/
def regW : List String := [renderSourceRow srcRowA]

theorem b64Val_b64Char : ∀ n < 64, b64Val (b64Char n) = some n := by decide

theorem b64Char_ne_pad : ∀ n < 64, b64Char n ≠ '=' := by decide

/-- Decoding inverts encoding for the standard base64 codec on byte lists. -/
theorem decB64_encB64 : ∀ (bs : List Nat), (∀ b ∈ bs, b < 256) → decB64 (encB64 bs) = some bs
  | [], _ => rfl
  | [a], h => by
    have ha : a < 256 := h a (by simp)
    have e1 : b64Val (b64Char (a / 4)) = some (a / 4) := b64Val_b64Char _ (by omega)
    have e2 : b64Val (b64Char (a % 4 * 16)) = some (a % 4 * 16) := b64Val_b64Char _ (by omega)
    simp only [encB64, decB64, e1, e2, List.isEmpty_nil, Bool.true_and, decide_True, if_true]
    have h3 : a % 4 * 16 % 16 = 0 := by omega
    rw [if_pos h3]
    have h4 : a / 4 * 4 + a % 4 * 16 / 16 = a := by omega
    rw [h4]
  | [a, b], h => by
    have ha : a < 256 := h a (by simp)
    have hb : b < 256 := h b (by simp)
    have e1 : b64Val (b64Char (a / 4)) = some (a / 4) := b64Val_b64Char _ (by omega)
    have e2 : b64Val (b64Char (a % 4 * 16 + b / 16)) = some (a % 4 * 16 + b / 16) :=
      b64Val_b64Char _ (by omega)
    have e3 : b64Val (b64Char (b % 16 * 4)) = some (b % 16 * 4) := b64Val_b64Char _ (by omega)
    have hne : (b64Char (b % 16 * 4) = '=') = False :=
      eq_false (b64Char_ne_pad _ (by omega))
    simp only [encB64, decB64, e1, e2, e3, List.isEmpty_nil, Bool.true_and, hne,
      decide_False, decide_True, if_true, if_false]
    have h4 : b % 16 * 4 % 4 = 0 := by omega
    rw [if_pos h4]
    have h5 : a / 4 * 4 + (a % 4 * 16 + b / 16) / 16 = a := by omega
    have h6 : (a % 4 * 16 + b / 16) % 16 * 16 + b % 16 * 4 / 4 = b := by omega
    rw [h5, h6]
  | a :: b :: c :: rest, h => by
    have ha : a < 256 := h a (by simp)
    have hb : b < 256 := h b (by simp)
    have hc : c < 256 := h c (by simp)
    have ih := decB64_encB64 rest (fun x hx => h x (by simp [hx]))
    have e1 : b64Val (b64Char (a / 4)) = some (a / 4) := b64Val_b64Char _ (by omega)
    have e2 : b64Val (b64Char (a % 4 * 16 + b / 16)) = some (a % 4 * 16 + b / 16) :=
      b64Val_b64Char _ (by omega)
    have e3 : b64Val (b64Char (b % 16 * 4 + c / 64)) = some (b % 16 * 4 + c / 64) :=
      b64Val_b64Char _ (by omega)
    have e4 : b64Val (b64Char (c % 64)) = some (c % 64) := b64Val_b64Char _ (by omega)
    have hne : (b64Char (c % 64) = '=') = False := eq_false (b64Char_ne_pad _ (by omega))
    simp only [encB64, decB64, e1, e2, e3, e4, ih, hne, decide_False, Bool.and_false,
      if_false]
    have h5 : a / 4 * 4 + (a % 4 * 16 + b / 16) / 16 = a := by omega
    have h6 : (a % 4 * 16 + b / 16) % 16 * 16 + (b % 16 * 4 + c / 64) / 4 = b := by omega
    have h7 : (b % 16 * 4 + c / 64) % 4 * 64 + c % 64 = c := by omega
    rw [h5, h6, h7]
    simp

theorem jget9_ts (v1 v2 v3 v4 v5 v6 v7 v8 v9 : Json) :
    jGet [("ts", v1), ("fts", v2), ("src", v3), ("pth", v4), ("exf", v5), ("siz", v6), ("hgh", v7), ("wdt", v8), ("crc", v9)] "ts" = some v1 := by
  simp [jGet, List.find?]

theorem jget9_fts (v1 v2 v3 v4 v5 v6 v7 v8 v9 : Json) :
    jGet [("ts", v1), ("fts", v2), ("src", v3), ("pth", v4), ("exf", v5), ("siz", v6), ("hgh", v7), ("wdt", v8), ("crc", v9)] "fts" = some v2 := by
  simp [jGet, List.find?]

theorem jget9_src (v1 v2 v3 v4 v5 v6 v7 v8 v9 : Json) :
    jGet [("ts", v1), ("fts", v2), ("src", v3), ("pth", v4), ("exf", v5), ("siz", v6), ("hgh", v7), ("wdt", v8), ("crc", v9)] "src" = some v3 := by
  simp [jGet, List.find?]

theorem jget9_pth (v1 v2 v3 v4 v5 v6 v7 v8 v9 : Json) :
    jGet [("ts", v1), ("fts", v2), ("src", v3), ("pth", v4), ("exf", v5), ("siz", v6), ("hgh", v7), ("wdt", v8), ("crc", v9)] "pth" = some v4 := by
  simp [jGet, List.find?]

theorem jget9_exf (v1 v2 v3 v4 v5 v6 v7 v8 v9 : Json) :
    jGet [("ts", v1), ("fts", v2), ("src", v3), ("pth", v4), ("exf", v5), ("siz", v6), ("hgh", v7), ("wdt", v8), ("crc", v9)] "exf" = some v5 := by
  simp [jGet, List.find?]

theorem jget9_siz (v1 v2 v3 v4 v5 v6 v7 v8 v9 : Json) :
    jGet [("ts", v1), ("fts", v2), ("src", v3), ("pth", v4), ("exf", v5), ("siz", v6), ("hgh", v7), ("wdt", v8), ("crc", v9)] "siz" = some v6 := by
  simp [jGet, List.find?]

theorem jget9_hgh (v1 v2 v3 v4 v5 v6 v7 v8 v9 : Json) :
    jGet [("ts", v1), ("fts", v2), ("src", v3), ("pth", v4), ("exf", v5), ("siz", v6), ("hgh", v7), ("wdt", v8), ("crc", v9)] "hgh" = some v7 := by
  simp [jGet, List.find?]

theorem jget9_wdt (v1 v2 v3 v4 v5 v6 v7 v8 v9 : Json) :
    jGet [("ts", v1), ("fts", v2), ("src", v3), ("pth", v4), ("exf", v5), ("siz", v6), ("hgh", v7), ("wdt", v8), ("crc", v9)] "wdt" = some v8 := by
  simp [jGet, List.find?]

theorem jget9_crc (v1 v2 v3 v4 v5 v6 v7 v8 v9 : Json) :
    jGet [("ts", v1), ("fts", v2), ("src", v3), ("pth", v4), ("exf", v5), ("siz", v6), ("hgh", v7), ("wdt", v8), ("crc", v9)] "crc" = some v9 := by
  simp [jGet, List.find?]

/-- C10: serializing a photo-archive JSON row and parsing the result back
yields a row with identical field values; in particular the EXIF bytes
survive the base64 encode and decode round-trip.  The hypotheses are the
machine-integer ranges of the Rust field types (u64, u32, i64, u8). -/
theorem row_roundtrip (r : PhotoArchiveJsonRow)
    (hex : ∀ b ∈ r.exif, b < 256)
    (hts : ∀ t, r.timestamp = some t → -(2 ^ 63) ≤ t ∧ t < 2 ^ 63)
    (hfts : r.file_ts < 2 ^ 64) (hsiz : r.size < 2 ^ 64)
    (hh : r.height < 2 ^ 32) (hw : r.width < 2 ^ 32) (hc : r.crc < 2 ^ 32) :
    rowFromJson (rowToJson r) = some r := by
  obtain ⟨ts, fts, src, pth, exf, siz, hgh, wdt, crc⟩ := r
  simp only at hex hts hfts hsiz hh hw hc
  have hb64 : b64decode (b64encode exf) = some exf := by
    simpa [b64decode, b64encode] using decB64_encB64 exf hex
  have hu64 : ∀ n : Nat, n < 2 ^ 64 → asU64 (Json.num (n : Int)) = some n := by
    intro n hn
    have hcond : (0 : Int) ≤ (n : Int) ∧ (n : Int) < 2 ^ 64 :=
      ⟨Int.natCast_nonneg _, by exact_mod_cast hn⟩
    simp only [asU64, if_pos hcond, Int.toNat_natCast]
  have hu32 : ∀ n : Nat, n < 2 ^ 32 → asU32 (Json.num (n : Int)) = some n := by
    intro n hn
    have hcond : (0 : Int) ≤ (n : Int) ∧ (n : Int) < 2 ^ 32 :=
      ⟨Int.natCast_nonneg _, by exact_mod_cast hn⟩
    simp only [asU32, if_pos hcond, Int.toNat_natCast]
  have hjts : ∀ jt, readTs [("ts", jt), ("fts", Json.num fts), ("src", Json.str src),
      ("pth", Json.str pth), ("exf", Json.str (b64encode exf)), ("siz", Json.num siz),
      ("hgh", Json.num hgh), ("wdt", Json.num wdt), ("crc", Json.num crc)] = some ts →
      rowFromJson (Json.obj [("ts", jt), ("fts", Json.num fts), ("src", Json.str src),
        ("pth", Json.str pth), ("exf", Json.str (b64encode exf)), ("siz", Json.num siz),
        ("hgh", Json.num hgh), ("wdt", Json.num wdt), ("crc", Json.num crc)]) =
      some ⟨ts, fts, src, pth, exf, siz, hgh, wdt, crc⟩ := by
    intro jt h
    show ((readTs _).bind _) = _
    rw [h, Option.some_bind, jget9_fts, Option.some_bind, hu64 fts hfts,
      Option.some_bind, jget9_src, Option.some_bind]
    show ((some src).bind _) = _
    rw [Option.some_bind, jget9_pth, Option.some_bind]
    show ((some pth).bind _) = _
    rw [Option.some_bind, jget9_exf, Option.some_bind]
    show ((b64decode (b64encode exf)).bind _) = _
    rw [hb64, Option.some_bind, jget9_siz, Option.some_bind, hu64 siz hsiz,
      Option.some_bind, jget9_hgh, Option.some_bind, hu32 hgh hh, Option.some_bind,
      jget9_wdt, Option.some_bind, hu32 wdt hw, Option.some_bind, jget9_crc,
      Option.some_bind, hu32 crc hc]
    rfl
  cases ts with
  | none =>
    exact hjts Json.null (by simp only [readTs, jget9_ts])
  | some t =>
    have hrange := hts t rfl
    have hi64 : asI64 (Json.num t) = some t := by
      simp only [asI64, if_pos hrange]
    exact hjts (Json.num t) (by simp only [readTs, jget9_ts, hi64]; rfl)

/-- C10 witness: the round-trip theorem applied to the concrete row rowW,
whose range hypotheses are discharged by computation. -/
theorem row_roundtrip_witness :
    (∀ b ∈ rowW.exif, b < 256) ∧ rowW.file_ts < 2 ^ 64 ∧ rowW.size < 2 ^ 64 ∧
      rowW.height < 2 ^ 32 ∧ rowW.width < 2 ^ 32 ∧ rowW.crc < 2 ^ 32 ∧
      rowFromJson (rowToJson rowW) = some rowW :=
  ⟨by decide, by decide, by decide, by decide, by decide, by decide,
   row_roundtrip rowW (by decide)
     (fun t ht => by cases ht; constructor <;> decide)
     (by decide) (by decide) (by decide) (by decide) (by decide)⟩

set_option maxRecDepth 200000 in
/-- C1: evaluation of retain at a concrete two-row bucket.  Both lines
parse as rows, the predicate keeps both, and retain succeeds; but the
rewritten file is the two lines concatenated with no newline between
them, a single line that no longer parses as a record — not
newline-delimited JSON with one kept record per line. -/
theorem retain_drops_newlines :
    retainBucket (fun _ => true) bucketW = .ok (rcLineA ++ rcLineB) ∧
    fileLines bucketW = [rcLineA, rcLineB] ∧
    fileLines (rcLineA ++ rcLineB) = [rcLineA ++ rcLineB] ∧
    parseRowLine rcLineA = some rcRowA ∧
    parseRowLine rcLineB = some rcRowB ∧
    parseRowLine (rcLineA ++ rcLineB) = none ∧
    ([rcLineA ++ rcLineB] : List String) ≠ [rcLineA, rcLineB] :=
  ⟨rfl, rfl, rfl, rfl, rfl, rfl, by decide⟩

/-- C2: the temporary file retain writes is created under /tmp with the
bucket name and a timestamp embedded in its name; its parent directory
is /tmp, not the directory of the bucket index file, so it is not a
sibling of the original in the same volume. -/
theorem retain_temp_not_sibling :
    retainTempPath "2021" "20251012-120000" = "/tmp/index.2021.20251012-120000.json" ∧
    bucketIndexPath "/archive" "2021" = "/archive/2021/index.json" ∧
    parentDirStr (retainTempPath "2021" "20251012-120000") = "/tmp" ∧
    parentDirStr (bucketIndexPath "/archive" "2021") = "/archive/2021" ∧
    parentDirStr (retainTempPath "2021" "20251012-120000") ≠
      parentDirStr (bucketIndexPath "/archive" "2021") :=
  ⟨rfl, rfl, rfl, rfl, by decide⟩

/-- C3 counterexample: a directory encountered during traversal whose
read_dir fails makes the whole scan abort with the expect panic, instead
of being logged and skipped: the claim fails on this input. -/
theorem scan_unreadable_dir_fatal :
    scanDir "/source" true (.entry (.dir "sub" false .nil) .nil) =
      .error "Error reading dir" := by
  simp [scanDir, scanEntries]

/-- C3 amended: an error reading one directory entry is logged and
skipped and the traversal continues; but a failing directory read
(read_dir itself) terminates the scan with the expect panic. -/
theorem scan_entry_error_skipped :
    (∀ pre rest, scanEntries pre (.errEntry rest) = scanEntries pre rest) ∧
    (∀ pre es, scanDir pre false es = .error "Error reading dir") :=
  ⟨fun _ _ => by rw [scanEntries], fun _ _ => by rw [scanDir]⟩

/-- C9 counterexample: with counting enabled the counter thread is
spawned, but join never awaits it — its handle is dropped at the spawn
site and is not among the collected handles. -/
theorem join_misses_counter :
    ThreadLabel.counter ∈ spawnedThreads true ∧
    JoinAction.await .counter ∉ joinActions := by decide

/-- C9 amended: join drops the logged-event receiver and then awaits the
scanner, the record-store writer, the logger and the four workers, in
that order; every thread spawned other than the optional counter is
awaited, and the counter is never awaited. -/
theorem join_awaits_handlers :
    joinActions = [.dropReceiver, .await .scanner, .await .writer, .await .logger,
      .await (.worker 0), .await (.worker 1), .await (.worker 2), .await (.worker 3)] ∧
    (∀ t ∈ spawnedThreads false, JoinAction.await t ∈ joinActions) ∧
    (∀ t ∈ spawnedThreads true, t ≠ .counter → JoinAction.await t ∈ joinActions) ∧
    JoinAction.await .counter ∉ joinActions := by decide

/-- C9 amended witness: the scanner is spawned and awaited. -/
theorem join_awaits_handlers_witness :
    ThreadLabel.scanner ∈ spawnedThreads true ∧ ThreadLabel.scanner ≠ .counter ∧
    JoinAction.await .scanner ∈ joinActions :=
  ⟨by decide, by decide, join_awaits_handlers.2.2.1 .scanner (by decide) (by decide)⟩

theorem crc32cStep_lt (c : Nat) (h : c < 2 ^ 32) : crc32cStep c < 2 ^ 32 := by
  unfold crc32cStep
  split
  · exact Nat.xor_lt_two_pow (by omega) (by norm_num)
  · omega

theorem crc32cIter_lt : ∀ (k : Nat) (c : Nat), c < 2 ^ 32 → crc32cStep^[k] c < 2 ^ 32
  | 0, _, h => h
  | k + 1, c, h => by
    rw [Function.iterate_succ_apply]
    exact crc32cIter_lt k _ (crc32cStep_lt c h)

theorem crc32cByte_lt (c b : Nat) (h : c < 2 ^ 32) : crc32cByte c b < 2 ^ 32 := by
  unfold crc32cByte
  exact crc32cIter_lt 8 _ (Nat.xor_lt_two_pow h (by omega))

theorem crc32c_foldl_lt : ∀ (bs : List Nat) (c : Nat), c < 2 ^ 32 →
    bs.foldl crc32cByte c < 2 ^ 32
  | [], _, h => h
  | b :: rest, c, h => by
    rw [List.foldl_cons]
    exact crc32c_foldl_lt rest _ (crc32cByte_lt c b h)

/-- CRC-32C values fit in a u32. -/
theorem crc32c_lt (bs : List Nat) : crc32c bs < 2 ^ 32 := by
  unfold crc32c
  exact Nat.xor_lt_two_pow (crc32c_foldl_lt bs _ (by norm_num)) (by norm_num)

theorem hexDigit_upper : ∀ m < 16, isHexUpperChar (hexDigit m) = true := by decide

/-- The 08X format always yields exactly eight characters. -/
theorem hex8_length (n : Nat) : (hex8 n).length = 8 := by
  simp [hex8, String.length]

/-- The 08X format yields only uppercase hexadecimal digits. -/
theorem hex8_upper (n : Nat) : (hex8 n).data.all isHexUpperChar = true := by
  rw [List.all_eq_true]
  intro c hc
  simp only [hex8, List.mem_map] at hc
  obtain ⟨i, _, rfl⟩ := hc
  exact hexDigit_upper _ (Nat.mod_lt _ (by norm_num))

theorem pathParent_concat (l : FPath) (a : String) : pathParent (l ++ [a]) = some l := by
  cases l with
  | nil => simp [pathParent]
  | cons x xs =>
    show some ((x :: (xs ++ [a])).dropLast) = some (x :: xs)
    rw [show x :: (xs ++ [a]) = (x :: xs) ++ [a] from rfl, List.dropLast_concat]

theorem pathFileName_concat (l : FPath) (a : String) :
    pathFileName (l ++ [a]) = some a := by
  simp [pathFileName]

/-- C6: for every partition CRC, archive base, source-relative path with
a parent, and optional photo timestamp, build_paths places date_dir at
archive/YYYY/MM.DD (or archive/no-date), img_dir at date_dir/img, and
link_dir at date_dir/PARTCRC8.DIRCRC8.dirname, the CRC-32C fields being
eight uppercase hexadecimal digits; and build_filename yields
HHMMSS_DIGEST8.jpg under a photo timestamp, else
YYYYMMDD-HHMMSS_DIGEST8.jpg from the UTC file timestamp. -/
theorem build_paths_layout (pcrc : Nat) (base parentComps : FPath)
    (fname dirname : String) (dt : NDT) (fts crcv : Nat)
    (hpc : pcrc < 2 ^ 32) (hne : parentComps ≠ [])
    (hlast : parentComps.getLast? = some dirname) :
    build_paths pcrc base (parentComps ++ [fname]) (some dt) =
      .ok ⟨base ++ [toString dt.year, pad2 dt.month ++ "." ++ pad2 dt.day],
           base ++ [toString dt.year, pad2 dt.month ++ "." ++ pad2 dt.day] ++ ["img"],
           base ++ [toString dt.year, pad2 dt.month ++ "." ++ pad2 dt.day] ++
             [hex8 pcrc ++ "." ++ hex8 (crc32c (strBytes (renderFPath parentComps))) ++ "." ++ dirname],
           base ++ [toString dt.year, pad2 dt.month ++ "." ++ pad2 dt.day] ++
             [hex8 pcrc ++ "." ++ hex8 (crc32c (strBytes (renderFPath parentComps))) ++ "." ++ dirname] ++
             [fname]⟩ ∧
    build_paths pcrc base (parentComps ++ [fname]) none =
      .ok ⟨base ++ ["no-date"],
           base ++ ["no-date"] ++ ["img"],
           base ++ ["no-date"] ++
             [hex8 pcrc ++ "." ++ hex8 (crc32c (strBytes (renderFPath parentComps))) ++ "." ++ dirname],
           base ++ ["no-date"] ++
             [hex8 pcrc ++ "." ++ hex8 (crc32c (strBytes (renderFPath parentComps))) ++ "." ++ dirname] ++
             [fname]⟩ ∧
    (hex8 pcrc).length = 8 ∧ (hex8 pcrc).data.all isHexUpperChar = true ∧
    crc32c (strBytes (renderFPath parentComps)) < 2 ^ 32 ∧
    (hex8 (crc32c (strBytes (renderFPath parentComps)))).length = 8 ∧
    (hex8 (crc32c (strBytes (renderFPath parentComps)))).data.all isHexUpperChar = true ∧
    build_filename (some dt) fts crcv =
      pad2 dt.hour ++ pad2 dt.minute ++ pad2 dt.second ++ "_" ++ hex8 crcv ++ ".jpg" ∧
    build_filename none fts crcv =
      pad4 (ndtFromEpoch fts).year ++ pad2 (ndtFromEpoch fts).month ++
        pad2 (ndtFromEpoch fts).day ++ "-" ++ pad2 (ndtFromEpoch fts).hour ++
        pad2 (ndtFromEpoch fts).minute ++ pad2 (ndtFromEpoch fts).second ++
        "_" ++ hex8 crcv ++ ".jpg" := by
  have hp : pathParent (parentComps ++ [fname]) = some parentComps :=
    pathParent_concat parentComps fname
  have hfn : pathFileName (parentComps ++ [fname]) = some fname :=
    pathFileName_concat parentComps fname
  have hdn : pathFileName parentComps = some dirname := hlast
  refine ⟨?_, ?_, hex8_length pcrc, hex8_upper pcrc, crc32c_lt _, hex8_length _,
    hex8_upper _, rfl, rfl⟩
  · simp only [build_paths, hp, hdn, hfn]
  · simp only [build_paths, hp, hdn, hfn]

set_option maxRecDepth 200000 in
/-- C6 witness: the layout theorem applied at the concrete spec scenario
(source id ABCD-1234, path DCIM/100/IMG_0001.jpg, EXIF timestamp
2021-06-07 14:23:05). -/
theorem build_paths_layout_witness :
    crc32c (strBytes "ABCD-1234") < 2 ^ 32 ∧ (["DCIM", "100"] : FPath) ≠ [] ∧
    (["DCIM", "100"] : FPath).getLast? = some "100" ∧
    (build_paths (crc32c (strBytes "ABCD-1234")) ["archive"]
        (["DCIM", "100"] ++ ["IMG_0001.jpg"]) (some ⟨2021, 6, 7, 14, 23, 5⟩) =
      .ok ⟨["archive"] ++ [toString (2021 : Nat), pad2 6 ++ "." ++ pad2 7],
           ["archive"] ++ [toString (2021 : Nat), pad2 6 ++ "." ++ pad2 7] ++ ["img"],
           ["archive"] ++ [toString (2021 : Nat), pad2 6 ++ "." ++ pad2 7] ++
             [hex8 (crc32c (strBytes "ABCD-1234")) ++ "." ++
               hex8 (crc32c (strBytes (renderFPath ["DCIM", "100"]))) ++ "." ++ "100"],
           ["archive"] ++ [toString (2021 : Nat), pad2 6 ++ "." ++ pad2 7] ++
             [hex8 (crc32c (strBytes "ABCD-1234")) ++ "." ++
               hex8 (crc32c (strBytes (renderFPath ["DCIM", "100"]))) ++ "." ++ "100"] ++
             ["IMG_0001.jpg"]⟩) :=
  ⟨by decide, by decide, by decide,
   (build_paths_layout (crc32c (strBytes "ABCD-1234")) ["archive"] ["DCIM", "100"]
     "IMG_0001.jpg" "100" ⟨2021, 6, 7, 14, 23, 5⟩ 1623075785 0
     (by decide) (by decide) (by decide)).1⟩

set_option maxRecDepth 200000 in
/-- The UTC conversion and filename format at the spec scenario: mtime
2020-01-02T03:04:05Z renders as 20200102-030405 with the digest in
eight uppercase hexadecimal digits. -/
theorem build_filename_scenario :
    build_filename none 1577934245 3808858755 = "20200102-030405_E3069283.jpg" ∧
    build_filename (some ⟨2021, 6, 7, 14, 23, 5⟩) 1623075785 3808858755 =
      "142305_E3069283.jpg" := by
  constructor <;> rfl

/-- C8: build_paths rejects a source-relative path that is a bare
filename, and succeeds on every path with at least one component above
the file. -/
theorem build_paths_parent_guard :
    (∀ (pcrc : Nat) (base : FPath) (f : String) (dt : Option NDT),
      ∃ e, build_paths pcrc base [f] dt = .error e) ∧
    (∀ (pcrc : Nat) (base : FPath) (comps : FPath) (dt : Option NDT),
      2 ≤ comps.length → ∃ r, build_paths pcrc base comps dt = .ok r) := by
  constructor
  · intro pcrc base f dt
    exact ⟨"Error extracting parent dir", rfl⟩
  · intro pcrc base comps dt hlen
    have hne : comps ≠ [] := by
      intro h
      rw [h] at hlen
      simp at hlen
    have hp : pathParent comps = some comps.dropLast := by
      cases comps with
      | nil => exact absurd rfl hne
      | cons x xs => rfl
    have hdne : comps.dropLast ≠ [] := by
      have : comps.dropLast.length = comps.length - 1 := List.length_dropLast comps
      intro h
      rw [h] at this
      simp at this
      omega
    obtain ⟨d, hd⟩ := Option.isSome_iff_exists.mp (List.getLast?_isSome.mpr hdne)
    obtain ⟨f, hf⟩ := Option.isSome_iff_exists.mp (List.getLast?_isSome.mpr hne)
    simp only [build_paths, hp, pathFileName, hd, hf]
    exact ⟨_, rfl⟩

/-- C8 witness: a bare filename is rejected and a two-component path is
accepted, at concrete inputs. -/
theorem build_paths_parent_guard_witness :
    (∃ e, build_paths 0 [] ["a.jpg"] none = .error e) ∧
    (2 ≤ (["d", "a.jpg"] : FPath).length ∧
      ∃ r, build_paths 0 [] ["d", "a.jpg"] none = .ok r) :=
  ⟨build_paths_parent_guard.1 0 [] "a.jpg" none,
   by decide,
   build_paths_parent_guard.2 0 [] ["d", "a.jpg"] none (by decide)⟩

/-- C7: write_entry refuses with an error and appends nothing when a row
with the same id is already present among the parseable lines of
sources.ndjson, and otherwise appends exactly one JSON line encoding
the row. -/
theorem write_entry_spec (lines : List String) (entry : SourceJsonRow) :
    (∀ existing, find_by_id lines entry.id = some existing →
      write_entry lines entry = .error ("Source with id " ++ existing.id ++
        " is already registered with name \x27" ++ existing.name ++ "\x27")) ∧
    (find_by_id lines entry.id = none →
      write_entry lines entry = .ok (lines ++ [renderSourceRow entry])) := by
  constructor
  · intro existing hfind
    simp only [write_entry, hfind]
  · intro hfind
    simp only [write_entry, hfind]

/-- C7 witness: against a registry holding srcRowA, writing srcRowA again
errors, and writing srcRowB appends its single line. -/
theorem write_entry_spec_witness :
    (find_by_id regW srcRowA.id = some srcRowA ∧
      write_entry regW srcRowA = .error ("Source with id " ++ srcRowA.id ++
        " is already registered with name \x27" ++ srcRowA.name ++ "\x27")) ∧
    (find_by_id regW srcRowB.id = none ∧
      write_entry regW srcRowB = .ok (regW ++ [renderSourceRow srcRowB])) :=
  ⟨⟨rfl, (write_entry_spec regW srcRowA).1 srcRowA rfl⟩,
   ⟨rfl, (write_entry_spec regW srcRowB).2 rfl⟩⟩

theorem addDir_files (fs : FsState) (d : FPath) : (addDir fs d).files = fs.files := by
  unfold addDir
  split <;> rfl

theorem processImage_characterize (env : WorkerEnv) (fs : FsState) (p : FPath)
    (ap : ArchivedPhotoPaths) :
    (ap.link_file_path ∈ fs.files ∧
      processImage env fs p ap = (addDir fs ap.img_path, [.skipped p ap.link_file_path], [])) ∨
    (ap.link_file_path ∉ fs.files ∧ ∃ e, env.decode p = .error e ∧
      processImage env fs p ap = (addDir (addDir fs ap.img_path) ap.link_dir_path,
        [.errored p ("Error processing image - " ++ e)], [])) ∨
    (ap.link_file_path ∉ fs.files ∧ ∃ img, env.decode p = .ok img ∧
      (img.height < 300 ∨ img.width < 300) ∧
      processImage env fs p ap = (addDir (addDir fs ap.img_path) ap.link_dir_path,
        [.ignored p ("Image is too small " ++ toString img.width ++ "x" ++ toString img.height)], [])) ∨
    (ap.link_file_path ∉ fs.files ∧ ∃ img, env.decode p = .ok img ∧
      300 ≤ img.height ∧ 300 ≤ img.width ∧
      ap.link_file_path ∈ (processImage env fs p ap).1.files ∧
      fs.files ⊆ (processImage env fs p ap).1.files ∧
      (∃ dst generated, (processImage env fs p ap).2.1 =
        [.stored p dst generated (env.exifTs p).isNone]) ∧
      (∀ r ∈ (processImage env fs p ap).2.2, r.height = img.height ∧ r.width = img.width)) := by
  by_cases hlink : ap.link_file_path ∈ fs.files
  · left
    refine ⟨hlink, ?_⟩
    simp only [processImage]
    rw [if_pos (by rwa [addDir_files])]
  · cases hdec : env.decode p with
    | error e =>
      right; left
      refine ⟨hlink, e, rfl, ?_⟩
      simp only [processImage, hdec]
      rw [if_neg (by rwa [addDir_files])]
    | ok img =>
      by_cases hsmall : img.height < 300 ∨ img.width < 300
      · right; right; left
        refine ⟨hlink, img, rfl, hsmall, ?_⟩
        simp only [processImage, hdec]
        rw [if_neg (by rwa [addDir_files])]
        rw [if_pos (by simp only [Bool.or_eq_true, decide_eq_true_eq]; exact hsmall)]
      · push_neg at hsmall
        right; right; right
        refine ⟨hlink, img, rfl, hsmall.1, hsmall.2, ?_⟩
        simp only [processImage, hdec]
        rw [if_neg (by rwa [addDir_files])]
        rw [if_neg (by simp only [Bool.or_eq_true, decide_eq_true_eq]; omega)]
        by_cases hfp : ap.img_path ++ [build_filename (env.exifTs p) (env.mtime p) (crc32c img.bytes)] ∈
            (addDir (addDir fs ap.img_path) ap.link_dir_path).files
        · rw [if_pos hfp]
          have hl2 : ap.link_file_path ∉ (addDir (addDir fs ap.img_path) ap.link_dir_path).files := by
            rwa [addDir_files, addDir_files]
          rw [if_neg hl2]
          refine ⟨?_, ?_, ⟨_, _, rfl⟩, ?_⟩
          · simp [addFile]
          · intro x hx
            simp only [addFile, addDir_files]
            exact List.mem_cons_of_mem _ hx
          · intro r hr
            simp only [addFile, List.mem_singleton] at hr
            subst hr
            exact ⟨rfl, rfl⟩
        · rw [if_neg hfp]
          by_cases hl3 : ap.link_file_path ∈
              (addFile (addDir (addDir fs ap.img_path) ap.link_dir_path)
                (ap.img_path ++ [build_filename (env.exifTs p) (env.mtime p) (crc32c img.bytes)])).files
          · rw [if_pos hl3]
            refine ⟨hl3, ?_, ⟨_, _, rfl⟩, ?_⟩
            · intro x hx
              simp only [addFile, addDir_files]
              exact List.mem_cons_of_mem _ hx
            · intro r hr
              simp at hr
          · rw [if_neg hl3]
            refine ⟨?_, ?_, ⟨_, _, rfl⟩, ?_⟩
            · simp [addFile]
            · intro x hx
              simp only [addFile, addDir_files]
              exact List.mem_cons_of_mem _ (List.mem_cons_of_mem _ hx)
            · intro r hr
              simp only [addFile, List.mem_singleton] at hr
              subst hr
              exact ⟨rfl, rfl⟩

theorem processOne_ok (env : WorkerEnv) (fs : FsState) (p : FPath)
    (out : FsState × List SyncEvent × List PhotoArchiveRow)
    (h : processOne env fs p = .ok out) :
    ∃ ap, build_paths (crc32c (strBytes env.partitionId)) env.targetBase
        (p.drop env.sourceBase.length) (env.exifTs p) = .ok ap ∧
      out = processImage env fs p ap := by
  simp only [processOne] at h
  cases hbp : build_paths (crc32c (strBytes env.partitionId)) env.targetBase
      (p.drop env.sourceBase.length) (env.exifTs p) with
  | error e => rw [hbp] at h; cases h
  | ok ap =>
    rw [hbp] at h
    exact ⟨ap, rfl, (Except.ok.inj h).symm⟩

theorem processOne_eq (env : WorkerEnv) (fs : FsState) (p : FPath)
    (ap : ArchivedPhotoPaths)
    (h : build_paths (crc32c (strBytes env.partitionId)) env.targetBase
        (p.drop env.sourceBase.length) (env.exifTs p) = .ok ap) :
    processOne env fs p = .ok (processImage env fs p ap) := by
  simp only [processOne, h]

theorem processImage_files_mono (env : WorkerEnv) (fs : FsState) (p : FPath)
    (ap : ArchivedPhotoPaths) : fs.files ⊆ (processImage env fs p ap).1.files := by
  rcases processImage_characterize env fs p ap with
    ⟨_, hpi⟩ | ⟨_, e, _, hpi⟩ | ⟨_, img, _, _, hpi⟩ | ⟨_, img, _, _, _, _, hsub, _, _⟩
  · rw [hpi]; intro x hx; rwa [addDir_files]
  · rw [hpi]; intro x hx; rwa [addDir_files, addDir_files]
  · rw [hpi]; intro x hx; rwa [addDir_files, addDir_files]
  · exact hsub

theorem processAll_files_mono (env : WorkerEnv) :
    ∀ (ps : List FPath) (fs : FsState)
      (out : FsState × List SyncEvent × List PhotoArchiveRow),
      processAll env fs ps = .ok out → fs.files ⊆ out.1.files
  | [], fs, out, h => by
    simp only [processAll, Except.ok.injEq] at h
    rw [← h]
    exact fun x hx => hx
  | p :: rest, fs, out, h => by
    cases hstep : processOne env fs p with
    | error e =>
      simp only [processAll, hstep] at h
      exact Except.noConfusion h
    | ok out1 =>
      obtain ⟨fsa, evsa, rcsa⟩ := out1
      simp only [processAll, hstep] at h
      cases hrest : processAll env fsa rest with
      | error e =>
        simp only [hrest] at h
        exact Except.noConfusion h
      | ok out2 =>
        obtain ⟨fsb, evsb, rcsb⟩ := out2
        simp only [hrest, Except.ok.injEq] at h
        obtain ⟨ap, _, hout⟩ := processOne_ok env fs p (fsa, evsa, rcsa) hstep
        have h1 : fs.files ⊆ fsa.files := by
          have := processImage_files_mono env fs p ap
          rw [← hout] at this
          exact this
        have h2 : fsa.files ⊆ fsb.files := processAll_files_mono env rest fsa (fsb, evsb, rcsb) hrest
        rw [← h]
        exact h1.trans h2

theorem firstRun_progress (env : WorkerEnv) (fs : FsState) (p : FPath)
    (out : FsState × List SyncEvent × List PhotoArchiveRow)
    (h : processOne env fs p = .ok out)
    (hne : ∀ e ∈ out.2.1, e.isErrored = false) :
    ∃ ap, build_paths (crc32c (strBytes env.partitionId)) env.targetBase
        (p.drop env.sourceBase.length) (env.exifTs p) = .ok ap ∧
      (ap.link_file_path ∈ out.1.files ∨
        (∃ img, env.decode p = .ok img ∧ (img.height < 300 ∨ img.width < 300))) := by
  obtain ⟨ap, hbp, hout⟩ := processOne_ok env fs p out h
  refine ⟨ap, hbp, ?_⟩
  rcases processImage_characterize env fs p ap with
    ⟨hl, hpi⟩ | ⟨_, e, hdec, hpi⟩ | ⟨_, img, hdec, hsmall, _⟩ |
    ⟨_, img, hdec, _, _, hmem, _, _, _⟩
  · left
    rw [hout, hpi]
    rwa [addDir_files]
  · exfalso
    rw [hout, hpi] at hne
    have := hne (.errored p ("Error processing image - " ++ e)) (by simp)
    simp [SyncEvent.isErrored] at this
  · right
    exact ⟨img, hdec, hsmall⟩
  · left
    rw [hout]
    exact hmem

theorem secondRun_step (env : WorkerEnv) (G : FsState) (p : FPath)
    (ap : ArchivedPhotoPaths)
    (hbp : build_paths (crc32c (strBytes env.partitionId)) env.targetBase
        (p.drop env.sourceBase.length) (env.exifTs p) = .ok ap)
    (hD : ap.link_file_path ∈ G.files ∨
      (∃ img, env.decode p = .ok img ∧ (img.height < 300 ∨ img.width < 300))) :
    ∃ G1 evs, processOne env G p = .ok (G1, evs, []) ∧ G1.files = G.files ∧
      ∀ e ∈ evs, e.isSkippedOrIgnored = true := by
  rw [processOne_eq env G p ap hbp]
  by_cases hl : ap.link_file_path ∈ G.files
  · rcases processImage_characterize env G p ap with
      ⟨_, hpi⟩ | ⟨hnl, _⟩ | ⟨hnl, _⟩ | ⟨hnl, _⟩
    · refine ⟨addDir G ap.img_path, [.skipped p ap.link_file_path], by rw [hpi], addDir_files G _, ?_⟩
      intro e he
      simp only [List.mem_singleton] at he
      subst he
      rfl
    · exact absurd hl hnl
    · exact absurd hl hnl
    · exact absurd hl hnl
  · obtain ⟨img, hdec, hsmall⟩ := hD.resolve_left hl
    rcases processImage_characterize env G p ap with
      ⟨hl2, _⟩ | ⟨_, e, hdec2, _⟩ | ⟨_, img2, hdec2, hsmall2, hpi⟩ |
      ⟨_, img2, hdec2, hbig1, hbig2, _⟩
    · exact absurd hl2 hl
    · rw [hdec] at hdec2
      exact Except.noConfusion hdec2
    · rw [hdec] at hdec2
      have himg : img = img2 := Except.ok.inj hdec2
      subst himg
      refine ⟨addDir (addDir G ap.img_path) ap.link_dir_path,
        [.ignored p ("Image is too small " ++ toString img.width ++ "x" ++ toString img.height)],
        by rw [hpi], by rw [addDir_files, addDir_files], ?_⟩
      intro e he
      simp only [List.mem_singleton] at he
      subst he
      rfl
    · rw [hdec] at hdec2
      have himg : img = img2 := Except.ok.inj hdec2
      subst himg
      omega

theorem processAll_second_run (env : WorkerEnv) :
    ∀ (ps : List FPath) (fs fsr : FsState) (evs : List SyncEvent)
      (rcs : List PhotoArchiveRow) (G : FsState),
      processAll env fs ps = .ok (fsr, evs, rcs) →
      (∀ e ∈ evs, e.isErrored = false) →
      fsr.files ⊆ G.files →
      ∃ G2 evs2, processAll env G ps = .ok (G2, evs2, []) ∧
        (∀ e ∈ evs2, e.isSkippedOrIgnored = true) ∧ G2.files = G.files
  | [], fs, fsr, evs, rcs, G, h, _, _ => by
    refine ⟨G, [], rfl, by simp, rfl⟩
  | p :: rest, fs, fsr, evs, rcs, G, h, hne, hsub => by
    cases hstep : processOne env fs p with
    | error e =>
      simp only [processAll, hstep] at h
      exact Except.noConfusion h
    | ok out1 =>
      obtain ⟨fsa, evsa, rcsa⟩ := out1
      simp only [processAll, hstep] at h
      cases hrest : processAll env fsa rest with
      | error e =>
        simp only [hrest] at h
        exact Except.noConfusion h
      | ok out2 =>
        obtain ⟨fsb, evsb, rcsb⟩ := out2
        simp only [hrest, Except.ok.injEq, Prod.mk.injEq] at h
        obtain ⟨rfl, rfl, rfl⟩ := h
        have hnea : ∀ e ∈ evsa, e.isErrored = false :=
          fun e he => hne e (List.mem_append_left _ he)
        have hneb : ∀ e ∈ evsb, e.isErrored = false :=
          fun e he => hne e (List.mem_append_right _ he)
        have hsubA : fsa.files ⊆ fsb.files :=
          processAll_files_mono env rest fsa (fsb, evsb, rcsb) hrest
        obtain ⟨ap, hbp, hD⟩ := firstRun_progress env fs p (fsa, evsa, rcsa) hstep hnea
        have hD2 : ap.link_file_path ∈ G.files ∨
            (∃ img, env.decode p = .ok img ∧ (img.height < 300 ∨ img.width < 300)) :=
          hD.imp (fun hm => hsub (hsubA hm)) id
        obtain ⟨G1, evs2a, hstep2, hG1, hska⟩ := secondRun_step env G p ap hbp hD2
        obtain ⟨G2, evs2b, hrest2, hskb, hG2⟩ :=
          processAll_second_run env rest fsa fsb evsb rcsb G1 hrest hneb
            (by rw [hG1]; exact hsub)
        refine ⟨G2, evs2a ++ evs2b, ?_, ?_, ?_⟩
        · simp only [processAll, hstep2, hrest2, List.append_nil]
        · intro e he
          rcases List.mem_append.mp he with h1 | h2
          · exact hska e h1
          · exact hskb e h2
        · rw [hG2, hG1]

theorem processImage_records (env : WorkerEnv) (fs : FsState) (p : FPath)
    (ap : ArchivedPhotoPaths) :
    ∀ r ∈ (processImage env fs p ap).2.2, 300 ≤ r.width ∧ 300 ≤ r.height := by
  rcases processImage_characterize env fs p ap with
    ⟨_, hpi⟩ | ⟨_, e, _, hpi⟩ | ⟨_, img, _, _, hpi⟩ |
    ⟨_, img, _, hbig1, hbig2, _, _, _, hrecs⟩
  · rw [hpi]; simp
  · rw [hpi]; simp
  · rw [hpi]; simp
  · intro r hr
    obtain ⟨hh, hw⟩ := hrecs r hr
    rw [hh, hw]
    exact ⟨hbig2, hbig1⟩

theorem processAll_records (env : WorkerEnv) :
    ∀ (ps : List FPath) (fs : FsState)
      (out : FsState × List SyncEvent × List PhotoArchiveRow),
      processAll env fs ps = .ok out →
      ∀ r ∈ out.2.2, 300 ≤ r.width ∧ 300 ≤ r.height
  | [], fs, out, h => by
    simp only [processAll, Except.ok.injEq] at h
    rw [← h]
    simp
  | p :: rest, fs, out, h => by
    cases hstep : processOne env fs p with
    | error e =>
      simp only [processAll, hstep] at h
      exact Except.noConfusion h
    | ok out1 =>
      obtain ⟨fsa, evsa, rcsa⟩ := out1
      simp only [processAll, hstep] at h
      cases hrest : processAll env fsa rest with
      | error e =>
        simp only [hrest] at h
        exact Except.noConfusion h
      | ok out2 =>
        obtain ⟨fsb, evsb, rcsb⟩ := out2
        simp only [hrest, Except.ok.injEq] at h
        rw [← h]
        intro r hr
        rcases List.mem_append.mp hr with h1 | h2
        · obtain ⟨ap, _, hout⟩ := processOne_ok env fs p (fsa, evsa, rcsa) hstep
          have := processImage_records env fs p ap r
          rw [← hout] at this
          exact this h1
        · exact processAll_records env rest fsa (fsb, evsb, rcsb) hrest r h2

theorem skippedOrIgnored_not_stored (e : SyncEvent)
    (h : e.isSkippedOrIgnored = true) :
    e.isStoredGenerated = false ∧ e.isStored = false := by
  cases e <;> simp_all [SyncEvent.isSkippedOrIgnored, SyncEvent.isStoredGenerated,
    SyncEvent.isStored]

/-- C4: the idempotency gate.  First, when the derived link file already
exists the worker emits exactly one Skipped event carrying the source
path and the existing link file, stops before decoding, writes no file
and sends no record.  Second, a complete second pass over the same paths
from the state a first errorless pass produced emits only Skipped and
Ignored events: no Stored event at all, in particular none with
generated true, and no record is sent. -/
theorem idempotency_gate :
    (∀ (env : WorkerEnv) (fs : FsState) (p : FPath) (ap : ArchivedPhotoPaths),
      build_paths (crc32c (strBytes env.partitionId)) env.targetBase
          (p.drop env.sourceBase.length) (env.exifTs p) = .ok ap →
      ap.link_file_path ∈ fs.files →
      processOne env fs p = .ok (addDir fs ap.img_path, [.skipped p ap.link_file_path], []) ∧
      (addDir fs ap.img_path).files = fs.files) ∧
    (∀ (env : WorkerEnv) (ps : List FPath) (fs0 fs1 : FsState)
       (evs1 : List SyncEvent) (rcs1 : List PhotoArchiveRow),
      processAll env fs0 ps = .ok (fs1, evs1, rcs1) →
      (∀ e ∈ evs1, e.isErrored = false) →
      ∃ fs2 evs2, processAll env fs1 ps = .ok (fs2, evs2, []) ∧
        (∀ e ∈ evs2, e.isSkippedOrIgnored = true) ∧
        (∀ e ∈ evs2, e.isStored = false) ∧
        (∀ e ∈ evs2, e.isStoredGenerated = false)) := by
  constructor
  · intro env fs p ap hbp hl
    rcases processImage_characterize env fs p ap with
      ⟨_, hpi⟩ | ⟨hnl, _⟩ | ⟨hnl, _⟩ | ⟨hnl, _⟩
    · exact ⟨by rw [processOne_eq env fs p ap hbp, hpi], addDir_files fs _⟩
    · exact absurd hl hnl
    · exact absurd hl hnl
    · exact absurd hl hnl
  · intro env ps fs0 fs1 evs1 rcs1 h hne
    obtain ⟨fs2, evs2, hrun, hsk, hfiles⟩ :=
      processAll_second_run env ps fs0 fs1 evs1 rcs1 fs1 h hne (fun x hx => hx)
    exact ⟨fs2, evs2, hrun, hsk,
      fun e he => (skippedOrIgnored_not_stored e (hsk e he)).2,
      fun e he => (skippedOrIgnored_not_stored e (hsk e he)).1⟩

/-- C5: every record a worker sends carries width at least 300 and height
at least 300; and when the decoded image is smaller the worker emits one
Ignored event whose cause names the dimensions, writes no file and sends
no record. -/
theorem min_size_invariant :
    (∀ (env : WorkerEnv) (ps : List FPath) (fs : FsState)
       (out : FsState × List SyncEvent × List PhotoArchiveRow),
      processAll env fs ps = .ok out →
      ∀ r ∈ out.2.2, 300 ≤ r.width ∧ 300 ≤ r.height) ∧
    (∀ (env : WorkerEnv) (fs : FsState) (p : FPath) (ap : ArchivedPhotoPaths) (img : Img),
      build_paths (crc32c (strBytes env.partitionId)) env.targetBase
          (p.drop env.sourceBase.length) (env.exifTs p) = .ok ap →
      ap.link_file_path ∉ fs.files →
      env.decode p = .ok img →
      img.width < 300 ∨ img.height < 300 →
      processOne env fs p = .ok (addDir (addDir fs ap.img_path) ap.link_dir_path,
        [.ignored p ("Image is too small " ++ toString img.width ++ "x" ++ toString img.height)],
        []) ∧
      (addDir (addDir fs ap.img_path) ap.link_dir_path).files = fs.files) := by
  constructor
  · exact fun env ps fs out h => processAll_records env ps fs out h
  · intro env fs p ap img hbp hl hdec hsmall
    rcases processImage_characterize env fs p ap with
      ⟨hl2, _⟩ | ⟨_, e, hdec2, _⟩ | ⟨_, img2, hdec2, hsmall2, hpi⟩ |
      ⟨_, img2, hdec2, hbig1, hbig2, _⟩
    · exact absurd hl2 hl
    · rw [hdec] at hdec2
      exact Except.noConfusion hdec2
    · rw [hdec] at hdec2
      have himg : img = img2 := Except.ok.inj hdec2
      subst himg
      exact ⟨by rw [processOne_eq env fs p ap hbp, hpi],
        by rw [addDir_files, addDir_files]⟩
    · rw [hdec] at hdec2
      have himg : img = img2 := Except.ok.inj hdec2
      subst himg
      omega

set_option maxRecDepth 200000 in
theorem idempotency_gate_witness :
    (build_paths (crc32c (strBytes envW.partitionId)) envW.targetBase
        (pW.drop envW.sourceBase.length) (envW.exifTs pW) = .ok apW ∧
      apW.link_file_path ∈ fsLinkW.files ∧
      processOne envW fsLinkW pW =
        .ok (addDir fsLinkW apW.img_path, [.skipped pW apW.link_file_path], []) ∧
      (addDir fsLinkW apW.img_path).files = fsLinkW.files) ∧
    (processAll envW ⟨[], []⟩ [pW] = .ok (fs1W, evs1W, rcs1W) ∧
      (∀ e ∈ evs1W, e.isErrored = false) ∧
      ∃ fs2 evs2, processAll envW fs1W [pW] = .ok (fs2, evs2, []) ∧
        (∀ e ∈ evs2, e.isSkippedOrIgnored = true) ∧
        (∀ e ∈ evs2, e.isStored = false) ∧
        (∀ e ∈ evs2, e.isStoredGenerated = false)) :=
  ⟨⟨rfl, by simp [fsLinkW],
    idempotency_gate.1 envW fsLinkW pW apW rfl (by simp [fsLinkW])⟩,
   ⟨rfl, by decide,
    idempotency_gate.2 envW [pW] ⟨[], []⟩ fs1W evs1W rcs1W rfl (by decide)⟩⟩

set_option maxRecDepth 200000 in
theorem min_size_invariant_witness :
    (build_paths (crc32c (strBytes envSmallW.partitionId)) envSmallW.targetBase
        (pW.drop envSmallW.sourceBase.length) (envSmallW.exifTs pW) = .ok apW ∧
      apW.link_file_path ∉ (⟨[], []⟩ : FsState).files ∧
      envSmallW.decode pW = .ok ⟨200, 150, []⟩ ∧
      ((200 : Nat) < 300 ∨ (150 : Nat) < 300) ∧
      processOne envSmallW ⟨[], []⟩ pW =
        .ok (addDir (addDir ⟨[], []⟩ apW.img_path) apW.link_dir_path,
          [.ignored pW ("Image is too small " ++ toString (200 : Nat) ++ "x" ++ toString (150 : Nat))],
          [])) ∧
    ("Image is too small " ++ toString (200 : Nat) ++ "x" ++ toString (150 : Nat)) =
      "Image is too small 200x150" :=
  ⟨⟨rfl, by simp, rfl, Or.inl (by decide),
    (min_size_invariant.2 envSmallW ⟨[], []⟩ pW apW ⟨200, 150, []⟩ rfl (by simp) rfl
      (Or.inl (by decide))).1⟩,
   by decide⟩

theorem digitChar_isDigit : ∀ k < 10, (digitChar k).isDigit = true := by decide

theorem digitChar_toNat : ∀ k < 10, (digitChar k).toNat = 48 + k := by decide

theorem natDigitsAux_spec : ∀ (fuel n : Nat), n ≤ fuel →
    natDigitsAux fuel n ≠ [] ∧ (∀ c ∈ natDigitsAux fuel n, c.isDigit = true) ∧
    digitsToNat (natDigitsAux fuel n) = n
  | 0, n, h => by
    have hn : n = 0 := by omega
    subst hn
    refine ⟨by simp [natDigitsAux], ?_, by decide⟩
    intro c hc
    simp [natDigitsAux] at hc
    subst hc
    decide
  | fuel + 1, n, h => by
    by_cases hlt : n < 10
    · refine ⟨by simp [natDigitsAux, hlt], ?_, ?_⟩
      · intro c hc
        simp [natDigitsAux, hlt] at hc
        subst hc
        exact digitChar_isDigit n hlt
      · simp only [natDigitsAux, if_pos hlt, digitsToNat, List.foldl_cons, List.foldl_nil]
        rw [digitChar_toNat n hlt]
        omega
    · have hrec : n / 10 ≤ fuel := by omega
      obtain ⟨ih1, ih2, ih3⟩ := natDigitsAux_spec fuel (n / 10) hrec
      refine ⟨by simp [natDigitsAux, hlt], ?_, ?_⟩
      · intro c hc
        simp only [natDigitsAux, if_neg hlt, List.mem_append, List.mem_singleton] at hc
        rcases hc with hc | hc
        · exact ih2 c hc
        · subst hc
          exact digitChar_isDigit _ (by omega)
      · simp only [natDigitsAux, if_neg hlt, digitsToNat, List.foldl_append,
          List.foldl_cons, List.foldl_nil]
        have := digitChar_toNat (n % 10) (by omega)
        rw [this]
        simp only [digitsToNat] at ih3
        rw [ih3]
        omega

theorem natDigits_spec (n : Nat) :
    natDigits n ≠ [] ∧ (∀ c ∈ natDigits n, c.isDigit = true) ∧
    digitsToNat (natDigits n) = n :=
  natDigitsAux_spec n n (Nat.le_refl n)

theorem takeDigits_append : ∀ (ds rest : List Char), (∀ c ∈ ds, c.isDigit = true) →
    headNotDigit rest = true → takeDigits (ds ++ rest) = (ds, rest)
  | [], rest, _, hrest => by
    cases rest with
    | nil => rfl
    | cons c l =>
      simp only [headNotDigit, Bool.not_eq_true'] at hrest
      simp [takeDigits, hrest]
  | d :: ds, rest, hds, hrest => by
    have hd : d.isDigit = true := hds d (by simp)
    simp only [List.cons_append, takeDigits, hd, if_pos]
    rw [show List.append ds rest = ds ++ rest from rfl]
    rw [takeDigits_append ds rest (fun c hc => hds c (by simp [hc])) hrest]

theorem parseNat_natDigits (m : Nat) (rest : List Char) (hrest : headNotDigit rest = true) :
    parseNat (natDigits m ++ rest) = some (m, rest) := by
  obtain ⟨hne, hdig, hval⟩ := natDigits_spec m
  simp only [parseNat, takeDigits_append (natDigits m) rest hdig hrest]
  rw [if_neg (by simpa using hne)]
  rw [hval]

theorem skipWs_cons_of_not_ws (c : Char) (l : List Char)
    (h : (c = ' ' || c = Char.ofNat 9 || c = Char.ofNat 10 || c = Char.ofNat 13) = false) :
    skipWs (c :: l) = c :: l := by
  simp only [skipWs, h, Bool.false_eq_true, if_false]

theorem isDigit_not_ws (c : Char) (h : c.isDigit = true) :
    (c = ' ' || c = Char.ofNat 9 || c = Char.ofNat 10 || c = Char.ofNat 13) = false := by
  simp only [Bool.or_eq_false_iff, decide_eq_false_iff_not]
  refine ⟨⟨⟨?_, ?_⟩, ?_⟩, ?_⟩ <;> intro he <;> subst he <;> simp at h

theorem singleton_append_mk (c : Char) (cs : List Char) :
    String.singleton c ++ String.mk cs = String.mk (c :: cs) := rfl

theorem psb_quote (rest : List Char) :
    parseStringBody (Char.ofNat 34 :: rest) = some ("", rest) := by
  rw [parseStringBody.eq_def]
  simp

theorem psb_esc (e : Char) (c2 : Char) (rest : List Char) (he : unescChar e = some c2) :
    parseStringBody (Char.ofNat 92 :: e :: rest) =
      (parseStringBody rest).map (fun r => (String.singleton c2 ++ r.1, r.2)) := by
  rw [parseStringBody.eq_def]
  simp [he]

theorem psb_plain (c : Char) (rest : List Char) (h1 : ¬c = Char.ofNat 34)
    (h2 : ¬c = Char.ofNat 92) :
    parseStringBody (c :: rest) =
      (parseStringBody rest).map (fun r => (String.singleton c ++ r.1, r.2)) := by
  rw [parseStringBody.eq_def]
  simp [h1, h2]

theorem escChar_plain (c : Char) (h1 : ¬c = Char.ofNat 34) (h2 : ¬c = Char.ofNat 92)
    (h3 : ¬c = Char.ofNat 10) (h4 : ¬c = Char.ofNat 13) (h5 : ¬c = Char.ofNat 9) :
    escChar c = String.singleton c := by
  unfold escChar
  rw [if_neg h1, if_neg h2, if_neg h3, if_neg h4, if_neg h5]

theorem parseStringBody_esc : ∀ (cs rest : List Char),
    parseStringBody (escListAux cs ++ Char.ofNat 34 :: rest) = some (String.mk cs, rest)
  | [], rest => by
    simp only [escListAux, List.nil_append]
    rw [psb_quote]
  | c :: cs, rest => by
    have ih := parseStringBody_esc cs rest
    by_cases h1 : c = Char.ofNat 34
    · subst h1
      show parseStringBody ((escChar (Char.ofNat 34)).data ++ escListAux cs ++ _) = _
      rw [show escChar (Char.ofNat 34) = String.mk [Char.ofNat 92, Char.ofNat 34] from rfl]
      rw [show (String.mk [Char.ofNat 92, Char.ofNat 34]).data ++ escListAux cs ++
            Char.ofNat 34 :: rest =
          Char.ofNat 92 :: Char.ofNat 34 :: (escListAux cs ++ Char.ofNat 34 :: rest) from by
        simp]
      rw [psb_esc _ (Char.ofNat 34) _ (by decide), ih]
      simp [singleton_append_mk]
    · by_cases h2 : c = Char.ofNat 92
      · subst h2
        show parseStringBody ((escChar (Char.ofNat 92)).data ++ escListAux cs ++ _) = _
        rw [show escChar (Char.ofNat 92) = String.mk [Char.ofNat 92, Char.ofNat 92] from rfl]
        rw [show (String.mk [Char.ofNat 92, Char.ofNat 92]).data ++ escListAux cs ++
              Char.ofNat 34 :: rest =
            Char.ofNat 92 :: Char.ofNat 92 :: (escListAux cs ++ Char.ofNat 34 :: rest) from by
          simp]
        rw [psb_esc _ (Char.ofNat 92) _ (by decide), ih]
        simp [singleton_append_mk]
      · by_cases h3 : c = Char.ofNat 10
        · subst h3
          show parseStringBody ((escChar (Char.ofNat 10)).data ++ escListAux cs ++ _) = _
          rw [show escChar (Char.ofNat 10) = String.mk [Char.ofNat 92, 'n'] from rfl]
          rw [show (String.mk [Char.ofNat 92, 'n']).data ++ escListAux cs ++
                Char.ofNat 34 :: rest =
              Char.ofNat 92 :: 'n' :: (escListAux cs ++ Char.ofNat 34 :: rest) from by
            simp]
          rw [psb_esc _ (Char.ofNat 10) _ (by decide), ih]
          simp [singleton_append_mk]
        · by_cases h4 : c = Char.ofNat 13
          · subst h4
            show parseStringBody ((escChar (Char.ofNat 13)).data ++ escListAux cs ++ _) = _
            rw [show escChar (Char.ofNat 13) = String.mk [Char.ofNat 92, 'r'] from rfl]
            rw [show (String.mk [Char.ofNat 92, 'r']).data ++ escListAux cs ++
                  Char.ofNat 34 :: rest =
                Char.ofNat 92 :: 'r' :: (escListAux cs ++ Char.ofNat 34 :: rest) from by
              simp]
            rw [psb_esc _ (Char.ofNat 13) _ (by decide), ih]
            simp [singleton_append_mk]
          · by_cases h5 : c = Char.ofNat 9
            · subst h5
              show parseStringBody ((escChar (Char.ofNat 9)).data ++ escListAux cs ++ _) = _
              rw [show escChar (Char.ofNat 9) = String.mk [Char.ofNat 92, 't'] from rfl]
              rw [show (String.mk [Char.ofNat 92, 't']).data ++ escListAux cs ++
                    Char.ofNat 34 :: rest =
                  Char.ofNat 92 :: 't' :: (escListAux cs ++ Char.ofNat 34 :: rest) from by
                simp]
              rw [psb_esc _ (Char.ofNat 9) _ (by decide), ih]
              simp [singleton_append_mk]
            · show parseStringBody ((escChar c).data ++ escListAux cs ++ _) = _
              rw [escChar_plain c h1 h2 h3 h4 h5]
              rw [show (String.singleton c).data ++ escListAux cs ++ Char.ofNat 34 :: rest =
                  c :: (escListAux cs ++ Char.ofNat 34 :: rest) from by
                simp [String.singleton]]
              rw [psb_plain c _ h1 h2, ih]
              simp [singleton_append_mk]

theorem parseVal_flat (fuel : Nat) (v : Json) (hflat : jsonFlat v = true) (rest : List Char)
    (hrest : headNotDigit rest = true) :
    parseVal (fuel + 1) ((renderJson v).data ++ rest) = some (v, rest) := by
  cases v with
  | null =>
    show parseVal (fuel + 1) ('n' :: 'u' :: 'l' :: 'l' :: rest) = some (.null, rest)
    rw [parseVal.eq_def]
    simp [skipWs]
  | str s =>
    have hdata : (renderJson (.str s)).data ++ rest =
        Char.ofNat 34 :: (escListAux s.data ++ Char.ofNat 34 :: rest) := by
      show (String.mk [Char.ofNat 34] ++ escapeStr s ++ String.mk [Char.ofNat 34]).data ++ rest = _
      simp [String.data_append, escapeStr]
    rw [hdata, parseVal.eq_def]
    simp [skipWs, parseStringBody_esc]
  | num n =>
    by_cases hneg : n < 0
    · have hdata : (renderJson (.num n)).data ++ rest =
          '-' :: (natDigits n.natAbs ++ rest) := by
        show (renderInt n).data ++ rest = _
        rw [renderInt, if_pos hneg]
        simp [String.data_append]
      rw [hdata, parseVal.eq_2]
      rw [skipWs_cons_of_not_ws _ _ (by decide)]
      simp only [if_neg (by decide : ¬('-' = Char.ofNat 34)),
        if_neg (by decide : ¬('-' = '[')),
        if_neg (by decide : ¬('-' = Char.ofNat 123)),
        if_neg (by decide : ¬('-' = 'n')),
        if_pos (rfl : '-' = '-')]
      rw [parseNat_natDigits _ _ hrest]
      simp [abs_of_neg hneg]
    · obtain ⟨hne, hdig, _⟩ := natDigits_spec n.toNat
      cases hd : natDigits n.toNat with
      | nil => exact absurd hd hne
      | cons d ds =>
        have hddig : d.isDigit = true := hdig d (by rw [hd]; simp)
        have hdata : (renderJson (.num n)).data ++ rest = d :: (ds ++ rest) := by
          show (renderInt n).data ++ rest = _
          rw [renderInt, if_neg hneg]
          simp [hd]
        rw [hdata, parseVal.eq_2]
        have hq : ¬d = Char.ofNat 34 := fun h => by rw [h] at hddig; simp at hddig
        have hb : ¬d = '[' := fun h => by rw [h] at hddig; simp at hddig
        have hc : ¬d = Char.ofNat 123 := fun h => by rw [h] at hddig; simp at hddig
        have hn2 : ¬d = 'n' := fun h => by rw [h] at hddig; simp at hddig
        have hm : ¬d = '-' := fun h => by rw [h] at hddig; simp at hddig
        rw [show skipWs (d :: (ds ++ rest)) = d :: (ds ++ rest) from
          skipWs_cons_of_not_ws _ _ (isDigit_not_ws d hddig)]
        simp only [if_neg hq, if_neg hb, if_neg hc, if_neg hn2, if_neg hm, hddig, if_true]
        rw [show d :: (ds ++ rest) = natDigits n.toNat ++ rest from by rw [hd]; rfl]
        rw [parseNat_natDigits _ _ hrest]
        have hn3 : ((n.toNat : Nat) : Int) = n := by omega
        simp [hn3]
  | arr xs => simp [jsonFlat] at hflat
  | obj fs => simp [jsonFlat] at hflat

theorem parseObjTail_render : ∀ (fs : List (String × Json)) (fuel : Nat) (rest : List Char),
    (∀ f ∈ fs, jsonFlat f.2 = true) → fs.length ≤ fuel → fs ≠ [] →
    parseObjTail (fuel + 1) ((renderJsonFields fs).data ++ Char.ofNat 125 :: rest) =
      some (fs, rest)
  | [], _, _, _, _, hne => absurd rfl hne
  | [f], fuel, rest, hflat, hlen, _ => by
    cases fuel with
    | zero => simp at hlen
    | succ k =>
      have hdata : (renderJsonFields [f]).data ++ Char.ofNat 125 :: rest =
          Char.ofNat 34 :: (escListAux f.1.data ++ Char.ofNat 34 ::
            (':' :: ((renderJson f.2).data ++ Char.ofNat 125 :: rest))) := by
        rw [renderJsonFields]
        simp [String.data_append, escapeStr]
      rw [hdata, parseObjTail.eq_2]
      simp [parseStringBody_esc, skipWs,
        parseVal_flat k f.2 (hflat f (by simp)) (Char.ofNat 125 :: rest) (by rfl)]
  | f :: g :: fs, fuel, rest, hflat, hlen, _ => by
    cases fuel with
    | zero => simp at hlen
    | succ k =>
      have ih := parseObjTail_render (g :: fs) k rest
        (fun x hx => hflat x (by simp [hx])) (by simp at hlen ⊢; omega) (by simp)
      have hdata : (renderJsonFields (f :: g :: fs)).data ++ Char.ofNat 125 :: rest =
          Char.ofNat 34 :: (escListAux f.1.data ++ Char.ofNat 34 ::
            (':' :: ((renderJson f.2).data ++ ',' ::
              ((renderJsonFields (g :: fs)).data ++ Char.ofNat 125 :: rest)))) := by
        rw [renderJsonFields]
        simp [String.data_append, escapeStr]
      rw [hdata, parseObjTail.eq_2]
      simp [parseStringBody_esc, skipWs, ih,
        parseVal_flat k f.2 (hflat f (by simp))
          (',' :: ((renderJsonFields (g :: fs)).data ++ Char.ofNat 125 :: rest)) (by rfl)]

theorem renderJsonFields_length : ∀ (fs : List (String × Json)),
    fs.length ≤ (renderJsonFields fs).data.length + 1
  | [] => by simp
  | [f] => by simp
  | f :: g :: fs => by
    have ih := renderJsonFields_length (g :: fs)
    rw [renderJsonFields]
    simp only [String.data_append, List.length_append, List.length_cons]
    simp at ih ⊢
    omega

theorem parseVal_objRender (fs : List (String × Json)) (fuel : Nat) (rest : List Char)
    (hne : fs ≠ []) (hflat : ∀ f ∈ fs, jsonFlat f.2 = true)
    (hfuel : fs.length + 1 ≤ fuel) :
    parseVal (fuel + 1) ((renderJson (.obj fs)).data ++ rest) = some (.obj fs, rest) := by
  obtain ⟨f, fs', rfl⟩ : ∃ f fs', fs = f :: fs' := by
    cases fs with
    | nil => exact absurd rfl hne
    | cons a l => exact ⟨a, l, rfl⟩
  cases fuel with
  | zero => simp at hfuel
  | succ k =>
    have hdata : (renderJson (.obj (f :: fs'))).data ++ rest =
        Char.ofNat 123 :: ((renderJsonFields (f :: fs')).data ++ Char.ofNat 125 :: rest) := by
      rw [renderJson]
      simp [String.data_append]
    have ht : ∃ u, (renderJsonFields (f :: fs')).data = Char.ofNat 34 :: u := by
      cases fs' with
      | nil =>
        refine ⟨escListAux f.1.data ++ Char.ofNat 34 :: ':' :: (renderJson f.2).data, ?_⟩
        rw [renderJsonFields]
        simp [String.data_append, escapeStr]
      | cons g gs =>
        refine ⟨escListAux f.1.data ++ Char.ofNat 34 :: ':' ::
          ((renderJson f.2).data ++ ',' :: (renderJsonFields (g :: gs)).data), ?_⟩
        rw [renderJsonFields]
        simp [String.data_append, escapeStr]
    obtain ⟨u, ht⟩ := ht
    have hrun := parseObjTail_render (f :: fs') k rest hflat (by omega) (by simp)
    rw [ht] at hrun
    simp only [List.cons_append] at hrun
    rw [hdata, parseVal.eq_2]
    rw [skipWs_cons_of_not_ws _ _ (by decide)]
    simp [skipWs, ht, hrun]

theorem jsonParse_renderObj (fs : List (String × Json)) (hne : fs ≠ [])
    (hflat : ∀ f ∈ fs, jsonFlat f.2 = true) :
    jsonParse (renderJson (.obj fs)) = some (.obj fs) := by
  have hlen : (renderJson (.obj fs)).data.length =
      (renderJsonFields fs).data.length + 2 := by
    rw [renderJson]
    simp [String.data_append]
  have hv : parseVal ((renderJsonFields fs).data.length + 2 + 1)
      (renderJson (.obj fs)).data = some (.obj fs, []) := by
    have h2 := parseVal_objRender fs ((renderJsonFields fs).data.length + 2) [] hne hflat
      (by have := renderJsonFields_length fs; omega)
    simpa using h2
  unfold jsonParse
  rw [hlen, hv]
  simp [skipWs]

/-- C10: serializing a photo-archive JSON row to its JSON line and
parsing that line back yields a row with identical field values; in
particular the EXIF bytes survive the base64 encode and decode
round-trip.  The hypotheses are the machine-integer ranges of the Rust
field types (u64, u32, i64, u8). -/
theorem row_line_roundtrip (r : PhotoArchiveJsonRow)
    (hex : ∀ b ∈ r.exif, b < 256)
    (hts : ∀ t, r.timestamp = some t → -(2 ^ 63) ≤ t ∧ t < 2 ^ 63)
    (hfts : r.file_ts < 2 ^ 64) (hsiz : r.size < 2 ^ 64)
    (hh : r.height < 2 ^ 32) (hw : r.width < 2 ^ 32) (hc : r.crc < 2 ^ 32) :
    parseRowLine (rowToLine r) = some r := by
  have hparse : jsonParse (renderJson (rowToJson r)) = some (rowToJson r) := by
    simp only [rowToJson]
    apply jsonParse_renderObj
    · simp
    · intro f hf
      fin_cases hf
      · cases r.timestamp <;> rfl
      all_goals rfl
  unfold parseRowLine rowToLine
  rw [hparse, Option.some_bind]
  exact row_roundtrip r hex hts hfts hsiz hh hw hc

set_option maxRecDepth 200000 in
/-- C10 witness: the line-level round-trip theorem applied to the
concrete row rowW, whose range hypotheses are discharged by
computation. -/
theorem row_line_roundtrip_witness :
    (∀ b ∈ rowW.exif, b < 256) ∧ rowW.file_ts < 2 ^ 64 ∧ rowW.size < 2 ^ 64 ∧
      rowW.height < 2 ^ 32 ∧ rowW.width < 2 ^ 32 ∧ rowW.crc < 2 ^ 32 ∧
      parseRowLine (rowToLine rowW) = some rowW :=
  ⟨by decide, by decide, by decide, by decide, by decide, by decide,
   row_line_roundtrip rowW (by decide)
     (fun t ht => by cases ht; constructor <;> decide)
     (by decide) (by decide) (by decide) (by decide) (by decide)⟩
